import Mathlib

/-!
Verification of the UCT tree core of the fuego MCTS engine.

The embedding follows `SgUctTree.cpp` (tree operations), `SgStatisticsBase`
(statistics, from the statistics header) and `GoUctCommands.cpp` (parameter
commands).  Raw node pointers of the C++ are represented as
(allocator id, offset) pairs, the language-neutral equivalent named in the
design notes of the specification; machine floating point is modelled with
exact rational arithmetic.
-/

namespace Fuego

/-! ### Node data model

From section 3 of the specification: a node carries a move, a position count,
a move count with running mean, a RAVE count with running mean, and a
(first-child, child-count) pair identifying a contiguous block of children in
some allocator. -/

/-- Modelled from the spec: the reserved null move value (`SG_NULLMOVE` from
the missing `SgMove.h`); only its identity matters here. -/
def SG_NULLMOVE : Int := -1

/-- The statistical payload of a node: exactly the fields copied by
`SgUctNode::CopyDataFrom` (move, position count, move statistics, RAVE
statistics), excluding the child links. -/
structure UctData where
  move : Int
  posCount : Nat
  moveCount : Nat
  mean : Rat
  raveCount : Nat
  raveMean : Rat
deriving DecidableEq, Repr

/-- A tree node: statistical payload plus the (first-child, child-count)
pair.  `firstChild` is an (allocator id, offset) pair, meaningful only when
`nuChildren > 0`. -/
structure SgUctNode where
  move : Int
  posCount : Nat
  moveCount : Nat
  mean : Rat
  raveCount : Nat
  raveMean : Rat
  firstChild : Nat × Nat
  nuChildren : Nat
deriving DecidableEq, Repr

/-- The constructor `SgUctNode(SgMove move)`: move set, statistics zeroed, no
children. -/
def freshNode (move : Int) : SgUctNode :=
  { move := move, posCount := 0, moveCount := 0, mean := 0,
    raveCount := 0, raveMean := 0, firstChild := (0, 0), nuChildren := 0 }

/-- The statistical payload of a node. -/
def SgUctNode.dataOf (n : SgUctNode) : UctData :=
  { move := n.move, posCount := n.posCount, moveCount := n.moveCount,
    mean := n.mean, raveCount := n.raveCount, raveMean := n.raveMean }

/-- Modelled from the spec: `SgUctNode::CopyDataFrom` (declared in the
missing `SgUctTree.h`) copies the statistical fields and the move but not the
child links; its callers in `SgUctTree.cpp` set the child links separately
after calling it. -/
def SgUctNode.copyDataFrom (n : SgUctNode) (d : UctData) : SgUctNode :=
  { n with
      move := d.move
      posCount := d.posCount
      moveCount := d.moveCount
      mean := d.mean
      raveCount := d.raveCount
      raveMean := d.raveMean }

/-- `SgUctNode::HasChildren`: `m_nuChildren > 0`. -/
def SgUctNode.HasChildren (n : SgUctNode) : Bool :=
  decide (0 < n.nuChildren)

/-! ### Allocator and tree -/

/-- `SgUctAllocator`: a fixed-capacity sequence of nodes. -/
structure SgUctAllocator where
  nodes : List SgUctNode
  maxNodes : Nat
deriving DecidableEq, Repr

/-- `SgUctAllocator::NuNodes`: current number of nodes. -/
def SgUctAllocator.NuNodes (a : SgUctAllocator) : Nat :=
  a.nodes.length

/-- Modelled from the spec: appending requires capacity;
`SgUctAllocator::HasCapacity(n)` holds when `n` more nodes still fit the
configured maximum. -/
def SgUctAllocator.HasCapacity (a : SgUctAllocator) (n : Nat) : Bool :=
  decide (a.NuNodes + n ≤ a.maxNodes)

/-- `SgUctAllocator::Clear`: drop all nodes, keep the capacity. -/
def SgUctAllocator.Clear (a : SgUctAllocator) : SgUctAllocator :=
  { a with nodes := [] }

/-- `SgUctAllocator::SetMaxNodes`. -/
def SgUctAllocator.SetMaxNodes (a : SgUctAllocator) (maxNodes : Nat) : SgUctAllocator :=
  { a with maxNodes := maxNodes }

/-- `SgUctTree`: the root node (living outside any allocator) plus the
allocators. -/
structure SgUctTree where
  maxNodes : Nat
  root : SgUctNode
  allocators : List SgUctAllocator
deriving DecidableEq, Repr

/-- A stable reference to a node of the tree: the root, or a slot of one of
the allocators.  This is the (allocator id, offset) rendering of the raw
node pointers of the C++. -/
inductive NodeRef : Type where
  | root : NodeRef
  | alloc (i : Nat) (j : Nat) : NodeRef
deriving DecidableEq, Repr

/-- Dereference a node reference. -/
def SgUctTree.get? (t : SgUctTree) : NodeRef → Option SgUctNode
  | NodeRef.root => some t.root
  | NodeRef.alloc i j =>
    match t.allocators[i]? with
    | some a => a.nodes[j]?
    | none => none

/-- Store a node at a reference (a no-op on a dangling reference). -/
def SgUctTree.setNode (t : SgUctTree) (r : NodeRef) (n : SgUctNode) : SgUctTree :=
  match r with
  | NodeRef.root => { t with root := n }
  | NodeRef.alloc i j =>
    match t.allocators[i]? with
    | some a =>
      { t with allocators := t.allocators.set i { a with nodes := a.nodes.set j n } }
    | none => t

/-- Replace allocator `i` by `f` applied to it (a no-op when `i` is out of
range). -/
def SgUctTree.withAlloc (t : SgUctTree) (i : Nat) (f : SgUctAllocator → SgUctAllocator) :
    SgUctTree :=
  match t.allocators[i]? with
  | some a => { t with allocators := t.allocators.set i (f a) }
  | none => t

/-- A run of `push_back` calls on allocator `i`: append the given nodes at
its end. -/
def SgUctTree.appendAlloc (t : SgUctTree) (i : Nat) (L : List SgUctNode) : SgUctTree :=
  t.withAlloc i (fun a => { a with nodes := a.nodes ++ L })

/-- `SgUctTree::NuAllocators`. -/
def SgUctTree.NuAllocators (t : SgUctTree) : Nat :=
  t.allocators.length

/-- Total number of nodes held by the allocators. -/
def SgUctTree.allocSizes (t : SgUctTree) : Nat :=
  (t.allocators.map SgUctAllocator.NuNodes).sum

/-- `SgUctTree::NuNodes`: one for the root plus the allocator sizes. -/
def SgUctTree.NuNodes (t : SgUctTree) : Nat :=
  1 + t.allocSizes

/-- The size of allocator `i`, zero when `i` is out of range. -/
def SgUctTree.sizeAt (t : SgUctTree) (i : Nat) : Nat :=
  match t.allocators[i]? with
  | some a => a.NuNodes
  | none => 0

/-- `SgUctTree::Clear`: reset all allocators to empty and the root to a fresh
null-move node. -/
def SgUctTree.Clear (t : SgUctTree) : SgUctTree :=
  { t with
      allocators := t.allocators.map SgUctAllocator.Clear
      root := freshNode SG_NULLMOVE }

/-- `SgUctTree::SetMaxNodes`: clear, then give each allocator capacity
`maxNodes / NuAllocators()`; with no registered allocator the debug build
asserts and the function returns after the clear. -/
def SgUctTree.SetMaxNodes (t : SgUctTree) (maxNodes : Nat) : SgUctTree :=
  let t := t.Clear
  let nuAllocators := t.NuAllocators
  if nuAllocators = 0 then t
  else
    let maxNodesPerAlloc := maxNodes / nuAllocators
    { t with
        maxNodes := maxNodes
        allocators := t.allocators.map (fun a => a.SetMaxNodes maxNodesPerAlloc) }

/-- `SgUctTree::CreateAllocators`. -/
def SgUctTree.CreateAllocators (t : SgUctTree) (nuThreads : Nat) : SgUctTree :=
  let t := t.Clear
  { t with allocators := List.replicate nuThreads { nodes := [], maxNodes := 0 } }

/-- The child block of a node, as read by `SgUctChildIterator`: the
`nuChildren` consecutive slots starting at `firstChild`. -/
def SgUctTree.childrenOf (t : SgUctTree) (n : SgUctNode) : List SgUctNode :=
  if n.HasChildren then
    match t.allocators[n.firstChild.1]? with
    | some a => (a.nodes.drop n.firstChild.2).take n.nuChildren
    | none => []
  else []

/-- The moves of a node's children, read at a reference: the child set the
search sees below that node. -/
def SgUctTree.childMoves (t : SgUctTree) (r : NodeRef) : List Int :=
  match t.get? r with
  | some n => (t.childrenOf n).map SgUctNode.move
  | none => []

/-! ### Publication of a child block

Both `SgUctTree::CreateChildren` and `SgUctTree::ApplyFilter` publish a new
child block on the parent with two stores in a fixed program order,
`SetFirstChild` first and `SetNuChildren` second (the "write order
dependency" comments at their tails).  The stores are made explicit so the
order is part of the embedding. -/

/-- One store to the structural fields of a parent node. -/
inductive ParentStore : Type where
  | storeFirstChild (fc : Nat × Nat) : ParentStore
  | storeNuChildren (n : Nat) : ParentStore
deriving DecidableEq, Repr

/-- Apply one structural store to a node. -/
def applyStore (n : SgUctNode) : ParentStore → SgUctNode
  | ParentStore.storeFirstChild fc => { n with firstChild := fc }
  | ParentStore.storeNuChildren k => { n with nuChildren := k }

/-- Apply a sequence of structural stores, in order. -/
def applyStores (n : SgUctNode) (l : List ParentStore) : SgUctNode :=
  l.foldl applyStore n

/-- The store sequence both expansion operations perform on the parent:
`SetFirstChild(firstChild)` followed by `SetNuChildren(nuChildren)`. -/
def publishStores (fc : Nat × Nat) (k : Nat) : List ParentStore :=
  [ParentStore.storeFirstChild fc, ParentStore.storeNuChildren k]

/-! ### CreateChildren and ApplyFilter -/

/-- `SgUctTree::CreateChildren`: append one fresh node per move at the end of
allocator `allocatorId`, then publish the block on the parent. -/
def SgUctTree.CreateChildren (t : SgUctTree) (allocatorId : Nat) (r : NodeRef)
    (moves : List Int) : SgUctTree :=
  match t.get? r, t.allocators[allocatorId]? with
  | some node, some allocator =>
    let firstChild := (allocatorId, allocator.NuNodes)
    let t := t.appendAlloc allocatorId (moves.map freshNode)
    t.setNode r (applyStores node (publishStores firstChild moves.length))
  | _, _ => t

/-- The body of the copy loop of `SgUctTree::ApplyFilter` for one surviving
child `c`.  In the source the local `child` is pushed onto the vector before
`CopyDataFrom`, `SetNuChildren` and `SetFirstChild` run, so the value stored
in the vector is the freshly constructed node and the later updates only
change the local copy. -/
def applyFilterPush (c : SgUctNode) : SgUctNode :=
  let child := freshNode c.move
  let pushed := child
  let child := child.copyDataFrom c.dataOf
  let childNuChildren := c.nuChildren
  let child := { child with nuChildren := childNuChildren }
  let _ := if 0 < childNuChildren then { child with firstChild := c.firstChild } else child
  pushed

/-- `SgUctTree::ApplyFilter`: build a new child block in allocator
`allocatorId` holding one node per surviving child (a child whose move is not
in `rootFilter`), then publish it on the parent.  A node without children is
left untouched.  The source interleaves the child iteration with the pushes;
the reads are of slots below the original allocator size and the pushes land
at or above it, so reading the block up front is equivalent. -/
def SgUctTree.ApplyFilter (t : SgUctTree) (allocatorId : Nat) (r : NodeRef)
    (rootFilter : List Int) : SgUctTree :=
  match t.get? r, t.allocators[allocatorId]? with
  | some node, some allocator =>
    if node.HasChildren then
      let firstChild := (allocatorId, allocator.NuNodes)
      let kept := (t.childrenOf node).filter (fun c => !(rootFilter.contains c.move))
      let nuChildren := kept.length
      let t := t.appendAlloc allocatorId (kept.map applyFilterPush)
      t.setNode r (applyStores node (publishStores firstChild nuChildren))
    else t
  | _, _ => t

/-! ### Node statistics

`SgStatisticsBase` from the statistics header, with exact rational arithmetic
in place of the floating point `VALUE` parameter. -/

/-- `SgStatisticsBase`: a counter and a running mean. -/
structure SgStatisticsBase where
  m_count : Nat
  m_mean : Rat
deriving DecidableEq, Repr

/-- `SgStatisticsBase::Clear`: zero both fields. -/
def SgStatisticsBase.Clear (_ : SgStatisticsBase) : SgStatisticsBase :=
  { m_count := 0, m_mean := 0 }

/-- The default constructor, which calls `Clear()`. -/
def SgStatisticsBase.new : SgStatisticsBase :=
  SgStatisticsBase.Clear { m_count := 0, m_mean := 0 }

/-- `SgStatisticsBase::Add`: increment the count and update the running mean
incrementally (`val -= m_mean; m_mean += val / count`). -/
def SgStatisticsBase.Add (s : SgStatisticsBase) (val : Rat) : SgStatisticsBase :=
  let count := s.m_count
  let count := count + 1
  let val := val - s.m_mean
  { m_count := count, m_mean := s.m_mean + val / (count : Rat) }

/-- `SgStatisticsBase::Initialize`: store the given value and count. -/
def SgStatisticsBase.Initialize (_ : SgStatisticsBase) (val : Rat) (count : Nat) :
    SgStatisticsBase :=
  { m_count := count, m_mean := val }

/-- One mutating call on a statistics object: `Add`, `Initialize` or
`Clear`. -/
inductive StatOp : Type where
  | add (val : Rat) : StatOp
  | init (val : Rat) (count : Nat) : StatOp
  | clear : StatOp

/-- Execute one call. -/
def SgStatisticsBase.runOp (s : SgStatisticsBase) : StatOp → SgStatisticsBase
  | StatOp.add val => s.Add val
  | StatOp.init val count => s.Initialize val count
  | StatOp.clear => s.Clear

/-- Execute a sequence of calls, in order. -/
def SgStatisticsBase.runOps (s : SgStatisticsBase) (ops : List StatOp) : SgStatisticsBase :=
  ops.foldl SgStatisticsBase.runOp s

/-- The value arguments of an operation are all in `[0, 1]`. -/
def StatOp.valsIn01 : StatOp → Prop
  | StatOp.add val => 0 ≤ val ∧ val ≤ 1
  | StatOp.init val _ => 0 ≤ val ∧ val ≤ 1
  | StatOp.clear => True

instance : DecidablePred StatOp.valsIn01 := by
  intro op
  cases op <;> simp [StatOp.valsIn01] <;> infer_instance

/-! ### Parameter commands

`GoUctCommands::CmdParamSearch` and `GoUctCommands::CmdParamPlayer` from
`GoUctCommands.cpp`.  A set command carries a parameter name and one value
token; the GTP argument accessors (from the engine library, which is not part
of the sources here) are modelled from the spec.  The C++ signals failure by
throwing `GtpFailure` before the parameter setter runs; that is rendered as a
(message, state) pair where the state is returned unchanged alongside a
`some` message. -/

/-- `GoUctLiveGfx`. -/
inductive GoUctLiveGfx : Type where
  | livegfxNone | livegfxCounts | livegfxSequence
deriving DecidableEq, Repr

/-- `SgUctMoveSelect`. -/
inductive SgUctMoveSelect : Type where
  | selectValue | selectCount | selectBound | selectEstimate
deriving DecidableEq, Repr

/-- `GoUctGlobalSearchPrior`. -/
inductive GoUctGlobalSearchPrior : Type where
  | priorNone | priorEven | priorDefault
deriving DecidableEq, Repr

/-- `GoUctGlobalSearchMode`. -/
inductive GoUctGlobalSearchMode : Type where
  | modePlayoutPolicy | modeUct | modeOnePly
deriving DecidableEq, Repr

/-- A pre-lexed GTP argument token: a number or a word. -/
inductive GtpArgVal : Type where
  | intVal (n : Int) : GtpArgVal
  | floatVal (q : Rat) : GtpArgVal
  | strVal (s : String) : GtpArgVal
deriving DecidableEq, Repr

/-- Modelled from the spec: `GtpCommand::SizeTypeArg(i, min)` parses an
unsigned integer argument and fails unless it is at least `min` (the
parameter keys using it are specified as "integer ≥ 1"). -/
def SizeTypeArg (v : GtpArgVal) (min : Nat) : Except String Nat :=
  match v with
  | GtpArgVal.intVal n =>
    if n < (min : Int) then Except.error "argument out of range" else Except.ok n.toNat
  | _ => Except.error "argument is not an unsigned integer"

/-- Modelled from the spec: `GtpCommand::IntArg(i, min)` parses an integer
argument and fails unless it is at least `min`. -/
def IntArg (v : GtpArgVal) (min : Int) : Except String Int :=
  match v with
  | GtpArgVal.intVal n =>
    if n < min then Except.error "argument out of range" else Except.ok n
  | _ => Except.error "argument is not an integer"

/-- Modelled from the spec: `GtpCommand::FloatArg(i)` parses a numeric
argument. -/
def FloatArg (v : GtpArgVal) : Except String Rat :=
  match v with
  | GtpArgVal.intVal n => Except.ok (n : Rat)
  | GtpArgVal.floatVal q => Except.ok q
  | GtpArgVal.strVal _ => Except.error "argument is not a number"

/-- Modelled from the spec: `GtpCommand::BoolArg(i)` parses `0` or `1` and
fails on anything else. -/
def BoolArg (v : GtpArgVal) : Except String Bool :=
  match v with
  | GtpArgVal.intVal 0 => Except.ok false
  | GtpArgVal.intVal 1 => Except.ok true
  | _ => Except.error "argument is not 0 or 1"

/-- Lowercasing a word, character by character. -/
def strToLower (s : String) : String :=
  String.mk (s.data.map Char.toLower)

/-- The lowercased word of an argument token (`GtpCommand::ArgToLower`);
fails on a numeric token where a word is expected. -/
def ArgToLower (v : GtpArgVal) : Except String String :=
  match v with
  | GtpArgVal.strVal s => Except.ok (strToLower s)
  | _ => Except.error "argument is not a string"

/-- `LiveGfxArg` from `GoUctCommands.cpp`: recognise `none`, `counts`,
`sequence`; throw on anything else. -/
def LiveGfxArg (v : GtpArgVal) : Except String GoUctLiveGfx := do
  let arg ← ArgToLower v
  if arg = "none" then return GoUctLiveGfx.livegfxNone
  else if arg = "counts" then return GoUctLiveGfx.livegfxCounts
  else if arg = "sequence" then return GoUctLiveGfx.livegfxSequence
  else Except.error ("unknown live-gfx argument " ++ arg)

/-- `MoveSelectArg` from `GoUctCommands.cpp`. -/
def MoveSelectArg (v : GtpArgVal) : Except String SgUctMoveSelect := do
  let arg ← ArgToLower v
  if arg = "value" then return SgUctMoveSelect.selectValue
  else if arg = "count" then return SgUctMoveSelect.selectCount
  else if arg = "bound" then return SgUctMoveSelect.selectBound
  else if arg = "estimate" then return SgUctMoveSelect.selectEstimate
  else Except.error ("unknown move select argument " ++ arg)

/-- `PriorKnowledgeArg` from `GoUctCommands.cpp`. -/
def PriorKnowledgeArg (v : GtpArgVal) : Except String GoUctGlobalSearchPrior := do
  let arg ← ArgToLower v
  if arg = "none" then return GoUctGlobalSearchPrior.priorNone
  else if arg = "even" then return GoUctGlobalSearchPrior.priorEven
  else if arg = "default" then return GoUctGlobalSearchPrior.priorDefault
  else Except.error ("unknown prior knowledge argument " ++ arg)

/-- `SearchModeArg` from `GoUctCommands.cpp`. -/
def SearchModeArg (v : GtpArgVal) : Except String GoUctGlobalSearchMode := do
  let arg ← ArgToLower v
  if arg = "playout_policy" then return GoUctGlobalSearchMode.modePlayoutPolicy
  else if arg = "uct" then return GoUctGlobalSearchMode.modeUct
  else if arg = "one_ply" then return GoUctGlobalSearchMode.modeOnePly
  else Except.error ("unknown search mode argument " ++ arg)

/-- The `SgUctSearch`/`GoUctSearch` parameters settable through
`CmdParamSearch`. -/
structure SearchParams where
  keepGames : Bool
  lockFree : Bool
  logGames : Bool
  noBiasTerm : Bool
  rave : Bool
  raveCheckSame : Bool
  biasTermConstant : Rat
  expandThreshold : Nat
  firstPlayUrgency : Rat
  liveGfx : GoUctLiveGfx
  liveGfxInterval : Int
  moveSelect : SgUctMoveSelect
  numberThreads : Nat
  numberPlayouts : Int
  raveWeightFinal : Rat
  raveWeightInitial : Rat
deriving DecidableEq, Repr

/-- The `GoUctPlayer` parameters settable through `CmdParamPlayer`. -/
structure PlayerParams where
  autoParam : Bool
  earlyPass : Bool
  ignoreClock : Bool
  enablePonder : Bool
  reuseSubtree : Bool
  useRootFilter : Bool
  maxGames : Nat
  maxNodes : Nat
  maxTime : Rat
  priorKnowledge : GoUctGlobalSearchPrior
  resignThreshold : Rat
  searchMode : GoUctGlobalSearchMode
deriving DecidableEq, Repr

/-- Run one set branch: on a parse failure the thrown message is surfaced and
the parameters are returned as they were; otherwise the setter runs. -/
def setBranch {α : Type} (s : SearchParams) (parsed : Except String α)
    (setter : SearchParams → α → SearchParams) : Option String × SearchParams :=
  match parsed with
  | Except.error e => (some e, s)
  | Except.ok x => (none, setter s x)

/-- As `setBranch`, for the player parameters. -/
def setBranchP {α : Type} (p : PlayerParams) (parsed : Except String α)
    (setter : PlayerParams → α → PlayerParams) : Option String × PlayerParams :=
  match parsed with
  | Except.error e => (some e, p)
  | Except.ok x => (none, setter p x)

/-- The set form (two arguments) of `GoUctCommands::CmdParamSearch`. -/
def GoUctCommands.CmdParamSearch (s : SearchParams) (name : String) (v : GtpArgVal) :
    Option String × SearchParams :=
  if name = "keep_games" then
    setBranch s (BoolArg v) (fun s b => { s with keepGames := b })
  else if name = "lock_free" then
    setBranch s (BoolArg v) (fun s b => { s with lockFree := b })
  else if name = "log_games" then
    setBranch s (BoolArg v) (fun s b => { s with logGames := b })
  else if name = "no_bias_term" then
    setBranch s (BoolArg v) (fun s b => { s with noBiasTerm := b })
  else if name = "rave" then
    setBranch s (BoolArg v) (fun s b => { s with rave := b })
  else if name = "rave_check_same" then
    setBranch s (BoolArg v) (fun s b => { s with raveCheckSame := b })
  else if name = "bias_term_constant" then
    setBranch s (FloatArg v) (fun s x => { s with biasTermConstant := x })
  else if name = "expand_threshold" then
    setBranch s (SizeTypeArg v 1) (fun s x => { s with expandThreshold := x })
  else if name = "first_play_urgency" then
    setBranch s (FloatArg v) (fun s x => { s with firstPlayUrgency := x })
  else if name = "live_gfx" then
    setBranch s (LiveGfxArg v) (fun s x => { s with liveGfx := x })
  else if name = "live_gfx_interval" then
    setBranch s (IntArg v 1) (fun s x => { s with liveGfxInterval := x })
  else if name = "move_select" then
    setBranch s (MoveSelectArg v) (fun s x => { s with moveSelect := x })
  else if name = "number_threads" then
    setBranch s (SizeTypeArg v 1) (fun s x => { s with numberThreads := x })
  else if name = "number_playouts" then
    setBranch s (IntArg v 1) (fun s x => { s with numberPlayouts := x })
  else if name = "rave_weight_final" then
    setBranch s (FloatArg v) (fun s x => { s with raveWeightFinal := x })
  else if name = "rave_weight_initial" then
    setBranch s (FloatArg v) (fun s x => { s with raveWeightInitial := x })
  else
    (some ("unknown parameter: " ++ name), s)

/-- The set form (two arguments) of `GoUctCommands::CmdParamPlayer`. -/
def GoUctCommands.CmdParamPlayer (p : PlayerParams) (name : String) (v : GtpArgVal) :
    Option String × PlayerParams :=
  if name = "auto_param" then
    setBranchP p (BoolArg v) (fun p b => { p with autoParam := b })
  else if name = "early_pass" then
    setBranchP p (BoolArg v) (fun p b => { p with earlyPass := b })
  else if name = "ignore_clock" then
    setBranchP p (BoolArg v) (fun p b => { p with ignoreClock := b })
  else if name = "ponder" then
    setBranchP p (BoolArg v) (fun p b => { p with enablePonder := b })
  else if name = "reuse_subtree" then
    setBranchP p (BoolArg v) (fun p b => { p with reuseSubtree := b })
  else if name = "use_root_filter" then
    setBranchP p (BoolArg v) (fun p b => { p with useRootFilter := b })
  else if name = "max_games" then
    setBranchP p (SizeTypeArg v 1) (fun p x => { p with maxGames := x })
  else if name = "max_nodes" then
    setBranchP p (SizeTypeArg v 1) (fun p x => { p with maxNodes := x })
  else if name = "max_time" then
    setBranchP p (FloatArg v) (fun p x => { p with maxTime := x })
  else if name = "prior_knowledge" then
    setBranchP p (PriorKnowledgeArg v) (fun p x => { p with priorKnowledge := x })
  else if name = "resign_threshold" then
    setBranchP p (FloatArg v) (fun p x => { p with resignThreshold := x })
  else if name = "search_mode" then
    setBranchP p (SearchModeArg v) (fun p x => { p with searchMode := x })
  else
    (some ("unknown parameter: " ++ name), p)

/-- The parameter names `CmdParamSearch` recognises. -/
def searchParamKeys : List String :=
  ["keep_games", "lock_free", "log_games", "no_bias_term", "rave",
   "rave_check_same", "bias_term_constant", "expand_threshold",
   "first_play_urgency", "live_gfx", "live_gfx_interval", "move_select",
   "number_threads", "number_playouts", "rave_weight_final",
   "rave_weight_initial"]

/-- The parameter names `CmdParamPlayer` recognises. -/
def playerParamKeys : List String :=
  ["auto_param", "early_pass", "ignore_clock", "ponder", "reuse_subtree",
   "use_root_filter", "max_games", "max_nodes", "max_time",
   "prior_knowledge", "resign_threshold", "search_mode"]

/-! ### Subtree extraction

`SgUctTree::CopySubtree` and `SgUctTree::ExtractSubtree`.  The source tree is
read-only during the recursion, so the subtree reachable from the copied node
is captured up front as a rose tree (`UctView`); the recursion then follows
the source exactly.  The timer poll (`SgTimer::IsTimeOut`) and the abort flag
poll (`SgUserAbort`) are external inputs, modelled as boolean streams indexed
by the poll number. -/

mutual

/-- The reachable subtree at a source node: its statistical payload and the
subtrees of its children, in child-block order. -/
inductive UctView : Type where
  | mk : UctData → UctForest → UctView
deriving Repr

/-- A sequence of sibling subtrees. -/
inductive UctForest : Type where
  | nil : UctForest
  | cons : UctView → UctForest → UctForest
deriving Repr

end

/-- Number of sibling subtrees. -/
def UctForest.length : UctForest → Nat
  | UctForest.nil => 0
  | UctForest.cons _ rest => 1 + rest.length

mutual

/-- Number of nodes of a view. -/
def UctView.size : UctView → Nat
  | UctView.mk _ f => 1 + f.sizeF

/-- Total number of nodes of a forest. -/
def UctForest.sizeF : UctForest → Nat
  | UctForest.nil => 0
  | UctForest.cons v rest => v.size + rest.sizeF

end

/-- Number of proper descendants of a view's root. -/
def UctView.descCount : UctView → Nat
  | UctView.mk _ f => f.sizeF

/-- Total number of proper descendants of the trees of a forest. -/
def UctForest.descF : UctForest → Nat
  | UctForest.nil => 0
  | UctForest.cons v rest => v.descCount + rest.descF

mutual

/-- Read the reachable subtree of the tree at a reference, following
`firstChild`/`nuChildren` exactly as `SgUctChildIterator` does.  `fuel`
bounds the depth; `none` when the fuel runs out or a child slot is
missing. -/
def SgUctTree.viewAt (t : SgUctTree) : Nat → NodeRef → Option UctView
  | 0, _ => none
  | Nat.succ fuel, r =>
    match t.get? r with
    | none => none
    | some n =>
      if n.HasChildren then
        match SgUctTree.viewsFrom t fuel n.firstChild.1 n.firstChild.2 n.nuChildren with
        | some f => some (UctView.mk n.dataOf f)
        | none => none
      else some (UctView.mk n.dataOf UctForest.nil)
termination_by fuel r => (fuel, 0)

/-- Read `k` consecutive child subtrees starting at slot `(i, j)`. -/
def SgUctTree.viewsFrom (t : SgUctTree) : Nat → Nat → Nat → Nat → Option UctForest
  | _, _, _, 0 => some UctForest.nil
  | fuel, i, j, Nat.succ k =>
    match SgUctTree.viewAt t fuel (NodeRef.alloc i j), SgUctTree.viewsFrom t fuel i (j + 1) k with
    | some v, some f => some (UctForest.cons v f)
    | _, _ => none
termination_by fuel i j k => (fuel, k + 1)

end

/-- The external truncation conditions polled during a copy: the timer
timeout and the user abort flag, per poll. -/
structure TruncEnv : Type where
  timeOutAt : Nat → Bool
  abortAt : Nat → Bool

/-- The mutable state threaded through `CopySubtree`: the target tree, the
current allocator id, the remaining warn flag, the debug messages written so
far and the poll counter. -/
structure CopyCtx : Type where
  target : SgUctTree
  allocId : Nat
  warn : Bool
  msgs : List String
  step : Nat

/-- The debug message for a capacity truncation. -/
def capacityMsg : String := "SgUctTree::CopySubtree: Truncated (allocator capacity)\n"

/-- The debug message for a timeout truncation. -/
def timeMsg : String := "SgUctTree::CopySubtree: Truncated (max time)\n"

/-- The debug message for an abort truncation. -/
def abortMsg : String := "SgUctTree::CopySubtree: Truncated (aborted)\n"

/-- The capacity test of `CopySubtree`: whether the current target allocator
can hold the child block. -/
def copyCapacity (t1 : SgUctTree) (allocId k : Nat) : Bool :=
  match t1.allocators[allocId]? with
  | some a => a.HasCapacity k
  | none => false

/-- The debug messages `CopySubtree` prints at one node, in program order:
one line per truncation reason that holds, each only while the warn flag is
still set. -/
def truncMsgs (capacity timeOut abort warn : Bool) : List String :=
  (if !capacity && warn then [capacityMsg] else [])
    ++ (if timeOut && warn then [timeMsg] else [])
    ++ (if abort && warn then [abortMsg] else [])

mutual

/-- `SgUctTree::CopySubtree`: copy the data of the source node (the view
root) into the target node at `r`; stop if the source node has no children;
otherwise check capacity, time and abort, truncating with a zeroed position
count when any of them fires, and else publish and fill a fresh child block,
recursing into the children with the allocator id cycled per child. -/
def copySubtree (env : TruncEnv) (v : UctView) (r : NodeRef) (ctx : CopyCtx) : CopyCtx :=
  match v with
  | UctView.mk data children =>
    let node0 := (ctx.target.get? r).getD (freshNode SG_NULLMOVE)
    let copy := node0.copyDataFrom data
    let t1 := ctx.target.setNode r copy
    match children with
    | UctForest.nil => { ctx with target := t1 }
    | UctForest.cons _ _ =>
      let nuChildren := children.length
      let capacity := copyCapacity t1 ctx.allocId nuChildren
      let timeOut := env.timeOutAt ctx.step
      let abort := env.abortAt ctx.step
      let msgs := ctx.msgs ++ truncMsgs capacity timeOut abort ctx.warn
      let truncate := !capacity || timeOut || abort
      let step := ctx.step + 1
      if truncate then
        { target := t1.setNode r { copy with posCount := 0 }
          allocId := ctx.allocId
          warn := false
          msgs := msgs
          step := step }
      else
        let firstTargetChild := t1.sizeAt ctx.allocId
        let t2 := t1.setNode r
          { copy with
              firstChild := (ctx.allocId, firstTargetChild)
              nuChildren := nuChildren }
        let t3 := t2.appendAlloc ctx.allocId (List.replicate nuChildren (freshNode SG_NULLMOVE))
        copyForest env children ctx.allocId firstTargetChild 0
          { target := t3, allocId := ctx.allocId, warn := ctx.warn, msgs := msgs, step := step }

/-- The recursion loop at the tail of `CopySubtree`: for the `i`-th child,
cycle the allocator id (increment, wrapping to zero at `NuAllocators`), then
copy the child subtree into target slot `firstTargetChild + i` of the block
allocator. -/
def copyForest (env : TruncEnv) (vs : UctForest) (blockAlloc firstTargetChild i : Nat)
    (ctx : CopyCtx) : CopyCtx :=
  match vs with
  | UctForest.nil => ctx
  | UctForest.cons v rest =>
    let aid := ctx.allocId + 1
    let aid := if ctx.target.NuAllocators ≤ aid then 0 else aid
    let ctx1 := copySubtree env v (NodeRef.alloc blockAlloc (firstTargetChild + i))
      { ctx with allocId := aid }
    copyForest env rest blockAlloc firstTargetChild (i + 1) ctx1

end

/-- `SgUctTree::ExtractSubtree`: clear the target, then copy the subtree of
the chosen source node (given as its view) into the target root, starting
with allocator 0. -/
def SgUctTree.ExtractSubtree (target : SgUctTree) (v : UctView) (warnTruncate : Bool)
    (env : TruncEnv) : CopyCtx :=
  let target := target.Clear
  copySubtree env v NodeRef.root
    { target := target, allocId := 0, warn := warnTruncate, msgs := [], step := 0 }

mutual

/-- The target reproduces the view at `r`: the node exists, carries the
view's data, has exactly as many children as the view, and (when it has
children) its child block reproduces the child views slot by slot. -/
def realizesView (t : SgUctTree) (r : NodeRef) (v : UctView) : Bool :=
  match v with
  | UctView.mk data f =>
    match t.get? r with
    | none => false
    | some n =>
      decide (n.dataOf = data) && decide (n.nuChildren = f.length) &&
        (if f.length = 0 then true
         else realizesForest t n.firstChild.1 n.firstChild.2 f)

/-- The slots `(i, j), (i, j+1), …` reproduce the forest. -/
def realizesForest (t : SgUctTree) (i j : Nat) : UctForest → Bool
  | UctForest.nil => true
  | UctForest.cons v rest =>
    realizesView t (NodeRef.alloc i j) v && realizesForest t i (j + 1) rest

end

mutual

/-- The node references inspected by `realizesView`. -/
def posOfView (t : SgUctTree) (r : NodeRef) (v : UctView) : List NodeRef :=
  match v with
  | UctView.mk _ f =>
    match t.get? r with
    | none => [r]
    | some n =>
      r :: (if f.length = 0 then [] else posOfForest t n.firstChild.1 n.firstChild.2 f)

/-- The node references inspected by `realizesForest`. -/
def posOfForest (t : SgUctTree) (i j : Nat) : UctForest → List NodeRef
  | UctForest.nil => []
  | UctForest.cons v rest =>
    posOfView t (NodeRef.alloc i j) v ++ posOfForest t i (j + 1) rest

end

/-- A node satisfies the structural invariant: if it has children, its child
block lies inside an existing allocator. -/
def nodeOK (t : SgUctTree) (n : SgUctNode) : Prop :=
  0 < n.nuChildren →
    ∃ a, t.allocators[n.firstChild.1]? = some a ∧
      n.firstChild.2 + n.nuChildren ≤ a.NuNodes

/-- The tree-wide structural invariant: every node of the tree (the root and
every allocator slot) has its child block inside an existing allocator, so
every `num_children > 0` node can be descended through safely. -/
def SgUctTree.WF (t : SgUctTree) : Prop :=
  ∀ r n, t.get? r = some n → nodeOK t n

/-! ### Concrete instances used by witnesses -/

/-- A small tree: an empty allocator of capacity 4 and a fresh root. -/
def treeW : SgUctTree :=
  { maxNodes := 4, root := freshNode SG_NULLMOVE,
    allocators := [{ nodes := [], maxNodes := 4 }] }

/-- A node with visible statistics, as a tree leaf. -/
def statChild : SgUctNode :=
  { move := 5, posCount := 7, moveCount := 7, mean := 1/2, raveCount := 3,
    raveMean := 1/4, firstChild := (0, 0), nuChildren := 0 }

/-- A root with one child, the child block at slot `(0, 0)`. -/
def rootOneChild : SgUctNode :=
  { freshNode SG_NULLMOVE with firstChild := (0, 0), nuChildren := 1 }

/-- A tree whose root has a single child carrying statistics. -/
def treeC1 : SgUctTree :=
  { maxNodes := 10, root := rootOneChild,
    allocators := [{ nodes := [statChild], maxNodes := 10 }] }

/-- The environment in which neither the timer nor the abort flag ever
fires. -/
def envNone : TruncEnv :=
  { timeOutAt := fun _ => false, abortAt := fun _ => false }

/-- The environment in which both the timer and the abort flag fire at every
poll. -/
def envBoth : TruncEnv :=
  { timeOutAt := fun _ => true, abortAt := fun _ => true }

/-- Statistical payloads for concrete views. -/
def dA : UctData :=
  { move := 1, posCount := 3, moveCount := 3, mean := 0, raveCount := 0, raveMean := 0 }

/-- Statistical payloads for concrete views. -/
def dB : UctData :=
  { move := 2, posCount := 2, moveCount := 2, mean := 0, raveCount := 0, raveMean := 0 }

/-- A two-node view: a root with one child. -/
def viewTwo : UctView :=
  UctView.mk dA (UctForest.cons (UctView.mk dB UctForest.nil) UctForest.nil)

/-- A source tree realizing `viewTwo` at its root. -/
def srcTwo : SgUctTree :=
  { maxNodes := 4
    root := { move := 1, posCount := 3, moveCount := 3, mean := 0, raveCount := 0,
              raveMean := 0, firstChild := (0, 0), nuChildren := 1 }
    allocators := [{ nodes := [{ move := 2, posCount := 2, moveCount := 2, mean := 0,
                                 raveCount := 0, raveMean := 0, firstChild := (0, 0),
                                 nuChildren := 0 }], maxNodes := 4 }] }

/-- A concrete search parameter state. -/
def searchParams0 : SearchParams :=
  { keepGames := false, lockFree := false, logGames := false, noBiasTerm := false,
    rave := true, raveCheckSame := false, biasTermConstant := 0,
    expandThreshold := 1, firstPlayUrgency := 1,
    liveGfx := GoUctLiveGfx.livegfxNone, liveGfxInterval := 1,
    moveSelect := SgUctMoveSelect.selectCount, numberThreads := 1,
    numberPlayouts := 1, raveWeightFinal := 0, raveWeightInitial := 0 }

/-- A concrete player parameter state. -/
def playerParams0 : PlayerParams :=
  { autoParam := false, earlyPass := false, ignoreClock := false,
    enablePonder := false, reuseSubtree := true, useRootFilter := true,
    maxGames := 1, maxNodes := 1, maxTime := 1,
    priorKnowledge := GoUctGlobalSearchPrior.priorDefault, resignThreshold := 0,
    searchMode := GoUctGlobalSearchMode.modeUct }

/-! ### Helper lemmas -/

/-- Element lookup after `List.set`, at the written index. -/
theorem get?_set_self {α : Type} (l : List α) (i : Nat) (a : α) (h : i < l.length) :
    (l.set i a)[i]? = some a := by
  induction l generalizing i with
  | nil => simp at h
  | cons x xs ih =>
    cases i with
    | zero => simp [List.set]
    | succ j =>
      simp only [List.set, List.getElem?_cons_succ]
      exact ih j (by simpa using h)

/-- Element lookup after `List.set`, away from the written index. -/
theorem get?_set_other {α : Type} (l : List α) (i j : Nat) (a : α) (h : i ≠ j) :
    (l.set i a)[j]? = l[j]? := by
  induction l generalizing i j with
  | nil => simp [List.set]
  | cons x xs ih =>
    cases i with
    | zero =>
      cases j with
      | zero => exact absurd rfl h
      | succ k => simp [List.set]
    | succ i' =>
      cases j with
      | zero => simp [List.set]
      | succ k =>
        simp only [List.set, List.getElem?_cons_succ]
        exact ih i' k (fun hc => h (by rw [hc]))

/-- Lookup in an appended list, below the split point. -/
theorem get?_append_left {α : Type} (l l' : List α) (i : Nat) (h : i < l.length) :
    (l ++ l')[i]? = l[i]? := by
  induction l generalizing i with
  | nil => simp at h
  | cons x xs ih =>
    cases i with
    | zero => simp
    | succ j =>
      rw [List.cons_append, List.getElem?_cons_succ, List.getElem?_cons_succ]
      exact ih j (by simpa using h)

/-- Lookup in an appended list, at or above the split point. -/
theorem get?_append_right {α : Type} (l l' : List α) (i : Nat) (h : l.length ≤ i) :
    (l ++ l')[i]? = l'[i - l.length]? := by
  induction l generalizing i with
  | nil => simp
  | cons x xs ih =>
    cases i with
    | zero => simp at h
    | succ j =>
      rw [List.cons_append, List.getElem?_cons_succ, ih j (by simpa using h)]
      simp [Nat.succ_sub_succ]

/-- Summing a constant over a list. -/
theorem sum_map_const {α : Type} (l : List α) (c : Nat) :
    (l.map (fun _ => c)).sum = l.length * c := by
  induction l with
  | nil => simp
  | cons x xs ih => simp [ih, Nat.succ_mul, Nat.add_comm]

/-! ### C6: SetMaxNodes -/

/-- C6: with at least one allocator registered, `SetMaxNodes(N)` clears the
tree — `NuNodes()` is 1 afterwards — and gives every allocator capacity
`N / n_allocators`, so the total allocatable node count is the sum of the
per-allocator capacities, `n_allocators * (N / n_allocators)`. -/
theorem C6_setMaxNodes (t : SgUctTree) (N : Nat) (h : 0 < t.allocators.length) :
    (t.SetMaxNodes N).NuNodes = 1 ∧
    (∀ (i : Nat) (a : SgUctAllocator), (t.SetMaxNodes N).allocators[i]? = some a →
      a.maxNodes = N / t.allocators.length) ∧
    ((t.SetMaxNodes N).allocators.map SgUctAllocator.maxNodes).sum =
      t.allocators.length * (N / t.allocators.length) := by
  have hne : ¬((t.Clear).NuAllocators = 0) := by
    simp only [SgUctTree.Clear, SgUctTree.NuAllocators, List.length_map]
    omega
  have hres : t.SetMaxNodes N =
      { (t.Clear) with
          maxNodes := N
          allocators := (t.Clear).allocators.map
            (fun a => a.SetMaxNodes (N / (t.Clear).NuAllocators)) } := by
    simp only [SgUctTree.SetMaxNodes]
    rw [if_neg hne]
  have hlen : (t.Clear).NuAllocators = t.allocators.length := by
    simp [SgUctTree.Clear, SgUctTree.NuAllocators]
  have hallocs : (t.SetMaxNodes N).allocators = t.allocators.map
      (fun _ => ({ nodes := [], maxNodes := N / t.allocators.length } : SgUctAllocator)) := by
    rw [hres]
    show ((t.Clear).allocators).map (fun a => a.SetMaxNodes (N / (t.Clear).NuAllocators)) = _
    rw [hlen]
    show ((t.allocators.map SgUctAllocator.Clear).map
      (fun a => a.SetMaxNodes (N / t.allocators.length))) = _
    rw [List.map_map]
    rfl
  refine ⟨?_, ?_, ?_⟩
  · simp only [SgUctTree.NuNodes, SgUctTree.allocSizes, hallocs, List.map_map]
    have hfun : (SgUctAllocator.NuNodes ∘ fun _ : SgUctAllocator =>
        ({ nodes := [], maxNodes := N / t.allocators.length } : SgUctAllocator)) =
        fun _ : SgUctAllocator => (0 : Nat) := rfl
    rw [hfun, sum_map_const]
    simp
  · intro i a ha
    rw [hallocs] at ha
    rw [List.getElem?_map] at ha
    rcases hoa : t.allocators[i]? with _ | a0 <;> rw [hoa] at ha
    · simp at ha
    · simp only [Option.map_some'] at ha
      cases ha
      rfl
  · rw [hallocs, List.map_map]
    have hfun : (SgUctAllocator.maxNodes ∘ fun _ : SgUctAllocator =>
        ({ nodes := [], maxNodes := N / t.allocators.length } : SgUctAllocator)) =
        fun _ : SgUctAllocator => N / t.allocators.length := rfl
    rw [hfun, sum_map_const]

/-- Witness for C6 at a concrete tree with two allocators. -/
theorem C6_setMaxNodes_witness :
    0 < ([{ nodes := [], maxNodes := 0 },
          { nodes := [freshNode 3], maxNodes := 4 }] : List SgUctAllocator).length ∧
    (SgUctTree.SetMaxNodes
      { maxNodes := 0, root := freshNode SG_NULLMOVE,
        allocators := [{ nodes := [], maxNodes := 0 },
                       { nodes := [freshNode 3], maxNodes := 4 }] } 7).NuNodes = 1 := by
  refine ⟨by decide, ?_⟩
  exact (C6_setMaxNodes
    { maxNodes := 0, root := freshNode SG_NULLMOVE,
      allocators := [{ nodes := [], maxNodes := 0 },
                     { nodes := [freshNode 3], maxNodes := 4 }] } 7 (by decide)).1

/-! ### C7: statistics mean bounds -/

/-- One `Add` call with a value in the unit interval keeps the mean in the
unit interval. -/
theorem Add_mean_in_unit (s : SgStatisticsBase) (v : Rat) (hm0 : 0 ≤ s.m_mean)
    (hm1 : s.m_mean ≤ 1) (hv0 : 0 ≤ v) (hv1 : v ≤ 1) :
    0 ≤ (s.Add v).m_mean ∧ (s.Add v).m_mean ≤ 1 := by
  have hmean : (s.Add v).m_mean
      = s.m_mean + (v - s.m_mean) / ((s.m_count + 1 : Nat) : Rat) := rfl
  set m := s.m_mean with hm
  set k : Rat := ((s.m_count + 1 : Nat) : Rat) with hk
  have hk1 : (1 : Rat) ≤ k := by
    rw [hk]
    exact_mod_cast Nat.succ_le_succ (Nat.zero_le s.m_count)
  have hk0 : (0 : Rat) < k := lt_of_lt_of_le one_pos hk1
  have key : m + (v - m) / k = (m * (k - 1) + v) / k := by
    field_simp
    ring
  rw [hmean, key]
  constructor
  · apply div_nonneg _ hk0.le
    have : 0 ≤ m * (k - 1) := mul_nonneg hm0 (by linarith)
    linarith
  · rw [div_le_one hk0]
    nlinarith

/-- C7: if every `Add` value and every `Initialize` value lies in `[0, 1]`,
then after any sequence of `Add`, `Initialize` and `Clear` calls the stored
mean lies in `[0, 1]` (exact arithmetic); node means and RAVE means therefore
stay in `[0, 1]`. -/
theorem C7_mean_in_unit (s : SgStatisticsBase) (ops : List StatOp)
    (h0 : 0 ≤ s.m_mean) (h1 : s.m_mean ≤ 1) (hops : ∀ op ∈ ops, op.valsIn01) :
    0 ≤ (s.runOps ops).m_mean ∧ (s.runOps ops).m_mean ≤ 1 := by
  induction ops generalizing s with
  | nil => exact ⟨h0, h1⟩
  | cons op rest ih =>
    have hop : op.valsIn01 := hops op (by simp)
    have hrest : ∀ o ∈ rest, o.valsIn01 := fun o ho => hops o (by simp [ho])
    have hstep : ∀ s' : SgStatisticsBase, 0 ≤ s'.m_mean → s'.m_mean ≤ 1 →
        0 ≤ (s'.runOps rest).m_mean ∧ (s'.runOps rest).m_mean ≤ 1 :=
      fun s' a b => ih s' a b hrest
    show 0 ≤ ((s.runOp op).runOps rest).m_mean ∧ ((s.runOp op).runOps rest).m_mean ≤ 1
    cases op with
    | add v =>
      obtain ⟨hv0, hv1⟩ := hop
      obtain ⟨a, b⟩ := Add_mean_in_unit s v h0 h1 hv0 hv1
      exact hstep _ a b
    | init v c =>
      obtain ⟨hv0, hv1⟩ := hop
      exact hstep _ hv0 hv1
    | clear =>
      exact hstep _ le_rfl zero_le_one

/-- Witness for C7 on a concrete call sequence. -/
theorem C7_mean_in_unit_witness :
    0 ≤ (SgStatisticsBase.new.runOps
      [StatOp.add (1/2), StatOp.init 1 3, StatOp.add 0]).m_mean ∧
    (SgStatisticsBase.new.runOps
      [StatOp.add (1/2), StatOp.init 1 3, StatOp.add 0]).m_mean ≤ 1 :=
  C7_mean_in_unit SgStatisticsBase.new
    [StatOp.add (1/2), StatOp.init 1 3, StatOp.add 0]
    (by decide) (by decide)
    (by intro op hop; fin_cases hop <;> constructor <;> norm_num)

/-! ### Tree access lemmas -/

/-- A successful lookup index is in range. -/
theorem get?_lt_length {α : Type} (l : List α) (i : Nat) (a : α) (h : l[i]? = some a) :
    i < l.length := by
  induction l generalizing i with
  | nil => cases h
  | cons x xs ih =>
    cases i with
    | zero => simp
    | succ j => exact Nat.succ_lt_succ (ih j (by simpa using h))

/-- Unfolding a slot lookup. -/
theorem get?_alloc_elim (t : SgUctTree) (i j : Nat) (n : SgUctNode)
    (h : t.get? (NodeRef.alloc i j) = some n) :
    ∃ a, t.allocators[i]? = some a ∧ a.nodes[j]? = some n := by
  simp only [SgUctTree.get?] at h
  rcases ha : t.allocators[i]? with _ | a <;> rw [ha] at h
  · cases h
  · exact ⟨a, rfl, h⟩

/-- `setNode` at a valid reference stores the node. -/
theorem setNode_get?_same (t : SgUctTree) (r : NodeRef) (n n0 : SgUctNode)
    (h : t.get? r = some n0) : (t.setNode r n).get? r = some n := by
  cases r with
  | root => rfl
  | alloc i j =>
    obtain ⟨a, ha, hj⟩ := get?_alloc_elim t i j n0 h
    have hi : i < t.allocators.length := get?_lt_length _ _ _ ha
    have hjl : j < a.nodes.length := get?_lt_length _ _ _ hj
    simp only [SgUctTree.setNode, ha, SgUctTree.get?]
    rw [get?_set_self _ _ _ hi]
    exact get?_set_self _ _ _ hjl

/-- `setNode` leaves every other reference unchanged. -/
theorem setNode_get?_other (t : SgUctTree) (r : NodeRef) (n : SgUctNode) (p : NodeRef)
    (hne : p ≠ r) : (t.setNode r n).get? p = t.get? p := by
  cases r with
  | root =>
    cases p with
    | root => exact absurd rfl hne
    | alloc i' j' => simp [SgUctTree.setNode, SgUctTree.get?]
  | alloc i j =>
    rcases ha : t.allocators[i]? with _ | a
    · simp [SgUctTree.setNode, ha]
    · cases p with
      | root => simp [SgUctTree.setNode, ha, SgUctTree.get?]
      | alloc i' j' =>
        simp only [SgUctTree.setNode, ha, SgUctTree.get?]
        by_cases hii : i' = i
        · subst hii
          have hjj : j' ≠ j := by
            intro hc
            exact hne (by rw [hc])
          have hi : i' < t.allocators.length := get?_lt_length _ _ _ ha
          rw [get?_set_self _ _ _ hi, ha]
          exact get?_set_other _ _ _ _ (fun hc => hjj hc.symm)
        · rw [get?_set_other _ _ _ _ (fun hc => hii hc.symm)]

/-- `setNode` keeps the number of allocators. -/
theorem setNode_NuAllocators (t : SgUctTree) (r : NodeRef) (n : SgUctNode) :
    (t.setNode r n).NuAllocators = t.NuAllocators := by
  cases r with
  | root => rfl
  | alloc i j =>
    rcases ha : t.allocators[i]? with _ | a <;>
      simp [SgUctTree.setNode, ha, SgUctTree.NuAllocators]

/-- `setNode` keeps every allocator size. -/
theorem setNode_sizeAt (t : SgUctTree) (r : NodeRef) (n : SgUctNode) (i' : Nat) :
    (t.setNode r n).sizeAt i' = t.sizeAt i' := by
  cases r with
  | root => rfl
  | alloc i j =>
    rcases ha : t.allocators[i]? with _ | a
    · simp [SgUctTree.setNode, ha]
    · simp only [SgUctTree.setNode, ha, SgUctTree.sizeAt]
      by_cases hii : i' = i
      · subst hii
        rw [get?_set_self _ _ _ (get?_lt_length _ _ _ ha), ha]
        simp [SgUctAllocator.NuNodes]
      · rw [get?_set_other _ _ _ _ (fun hc => hii hc.symm)]

/-- `setNode` keeps every allocator capacity. -/
theorem setNode_maxNodesAt (t : SgUctTree) (r : NodeRef) (n : SgUctNode) (i' : Nat) :
    ((t.setNode r n).allocators[i']?).map SgUctAllocator.maxNodes =
      (t.allocators[i']?).map SgUctAllocator.maxNodes := by
  cases r with
  | root => rfl
  | alloc i j =>
    rcases ha : t.allocators[i]? with _ | a
    · simp [SgUctTree.setNode, ha]
    · simp only [SgUctTree.setNode, ha]
      by_cases hii : i' = i
      · subst hii
        rw [get?_set_self _ _ _ (get?_lt_length _ _ _ ha), ha]
        simp
      · rw [get?_set_other _ _ _ _ (fun hc => hii hc.symm)]

/-- Summing over a `set` when the new element has the same measure. -/
theorem sum_map_set {α : Type} (l : List α) (i : Nat) (a' : α) (f : α → Nat)
    (hf : ∀ a, l[i]? = some a → f a' = f a) :
    ((l.set i a').map f).sum = (l.map f).sum := by
  induction l generalizing i with
  | nil => simp
  | cons x xs ih =>
    cases i with
    | zero => simp [hf x (by simp)]
    | succ j =>
      simp only [List.set, List.map, List.sum_cons]
      rw [ih j (fun a ha => hf a (by simpa using ha))]

/-- `setNode` keeps the total node count. -/
theorem setNode_allocSizes (t : SgUctTree) (r : NodeRef) (n : SgUctNode) :
    (t.setNode r n).allocSizes = t.allocSizes := by
  cases r with
  | root => rfl
  | alloc i j =>
    rcases ha : t.allocators[i]? with _ | a
    · simp [SgUctTree.setNode, ha]
    · simp only [SgUctTree.setNode, ha, SgUctTree.allocSizes]
      exact sum_map_set _ _ _ _ (by
        intro a0 ha0
        rw [ha] at ha0
        cases ha0
        simp [SgUctAllocator.NuNodes])

/-- `appendAlloc` on a missing allocator is a no-op. -/
theorem appendAlloc_invalid (t : SgUctTree) (i : Nat) (L : List SgUctNode)
    (h : t.allocators[i]? = none) : t.appendAlloc i L = t := by
  simp [SgUctTree.appendAlloc, SgUctTree.withAlloc, h]

/-- The appended allocator after `appendAlloc`. -/
theorem appendAlloc_allocators_same (t : SgUctTree) (i : Nat) (L : List SgUctNode)
    (a : SgUctAllocator) (ha : t.allocators[i]? = some a) :
    (t.appendAlloc i L).allocators[i]? = some { a with nodes := a.nodes ++ L } := by
  simp only [SgUctTree.appendAlloc, SgUctTree.withAlloc, ha]
  exact get?_set_self _ _ _ (get?_lt_length _ _ _ ha)

/-- Other allocators after `appendAlloc`. -/
theorem appendAlloc_allocators_other (t : SgUctTree) (i : Nat) (L : List SgUctNode)
    (i' : Nat) (h : i' ≠ i) :
    (t.appendAlloc i L).allocators[i']? = t.allocators[i']? := by
  rcases ha : t.allocators[i]? with _ | a
  · rw [appendAlloc_invalid t i L ha]
  · simp only [SgUctTree.appendAlloc, SgUctTree.withAlloc, ha]
    exact get?_set_other _ _ _ _ (fun hc => h hc.symm)

/-- `appendAlloc` keeps the root. -/
theorem appendAlloc_root (t : SgUctTree) (i : Nat) (L : List SgUctNode) :
    (t.appendAlloc i L).root = t.root := by
  rcases ha : t.allocators[i]? with _ | a <;>
    simp [SgUctTree.appendAlloc, SgUctTree.withAlloc, ha]

/-- `appendAlloc` preserves every valid lookup. -/
theorem appendAlloc_get?_valid (t : SgUctTree) (i : Nat) (L : List SgUctNode)
    (p : NodeRef) (n : SgUctNode) (h : t.get? p = some n) :
    (t.appendAlloc i L).get? p = some n := by
  cases p with
  | root =>
    simp only [SgUctTree.get?, appendAlloc_root]
    exact h
  | alloc i' j' =>
    obtain ⟨a', ha', hj'⟩ := get?_alloc_elim t i' j' n h
    by_cases hii : i' = i
    · subst hii
      simp only [SgUctTree.get?, appendAlloc_allocators_same t i' L a' ha']
      rw [get?_append_left _ _ _ (get?_lt_length _ _ _ hj')]
      exact hj'
    · simp only [SgUctTree.get?, appendAlloc_allocators_other t i L i' hii]
      rw [ha']
      exact hj'

/-- The freshly appended slots of `appendAlloc`. -/
theorem appendAlloc_get?_new (t : SgUctTree) (i : Nat) (L : List SgUctNode)
    (a : SgUctAllocator) (j : Nat) (ha : t.allocators[i]? = some a) :
    (t.appendAlloc i L).get? (NodeRef.alloc i (a.NuNodes + j)) = L[j]? := by
  simp only [SgUctTree.get?, appendAlloc_allocators_same t i L a ha]
  rw [get?_append_right _ _ _ (by simp [SgUctAllocator.NuNodes])]
  simp [SgUctAllocator.NuNodes]

/-- Allocator sizes after `appendAlloc`, at the target allocator. -/
theorem appendAlloc_sizeAt_same (t : SgUctTree) (i : Nat) (L : List SgUctNode)
    (a : SgUctAllocator) (ha : t.allocators[i]? = some a) :
    (t.appendAlloc i L).sizeAt i = t.sizeAt i + L.length := by
  simp [SgUctTree.sizeAt, appendAlloc_allocators_same t i L a ha, ha,
    SgUctAllocator.NuNodes]

/-- Allocator sizes after `appendAlloc`, elsewhere. -/
theorem appendAlloc_sizeAt_other (t : SgUctTree) (i : Nat) (L : List SgUctNode)
    (i' : Nat) (h : i' ≠ i) : (t.appendAlloc i L).sizeAt i' = t.sizeAt i' := by
  simp [SgUctTree.sizeAt, appendAlloc_allocators_other t i L i' h]

/-- `appendAlloc` keeps the number of allocators. -/
theorem appendAlloc_NuAllocators (t : SgUctTree) (i : Nat) (L : List SgUctNode) :
    (t.appendAlloc i L).NuAllocators = t.NuAllocators := by
  rcases ha : t.allocators[i]? with _ | a <;>
    simp [SgUctTree.appendAlloc, SgUctTree.withAlloc, ha, SgUctTree.NuAllocators]

/-- `appendAlloc` keeps every allocator capacity. -/
theorem appendAlloc_maxNodesAt (t : SgUctTree) (i : Nat) (L : List SgUctNode) (i' : Nat) :
    ((t.appendAlloc i L).allocators[i']?).map SgUctAllocator.maxNodes =
      (t.allocators[i']?).map SgUctAllocator.maxNodes := by
  by_cases hii : i' = i
  · subst hii
    rcases ha : t.allocators[i']? with _ | a
    · rw [appendAlloc_invalid t i' L ha, ha]
    · rw [appendAlloc_allocators_same t i' L a ha]
      simp
  · rw [appendAlloc_allocators_other t i L i' hii]

/-- Exchanging one element of a sum over a list. -/
theorem sum_map_set_exchange {α : Type} (l : List α) (i : Nat) (a a' : α) (f : α → Nat)
    (ha : l[i]? = some a) :
    ((l.set i a').map f).sum + f a = (l.map f).sum + f a' := by
  induction l generalizing i with
  | nil => cases ha
  | cons x xs ih =>
    cases i with
    | zero =>
      have hx : x = a := by simpa using ha
      subst hx
      simp [List.set]
      omega
    | succ j =>
      have := ih j (by simpa using ha)
      simp only [List.set, List.map, List.sum_cons]
      omega

/-- Total node count after `appendAlloc` on an existing allocator. -/
theorem appendAlloc_allocSizes (t : SgUctTree) (i : Nat) (L : List SgUctNode)
    (a : SgUctAllocator) (ha : t.allocators[i]? = some a) :
    (t.appendAlloc i L).allocSizes = t.allocSizes + L.length := by
  have h := sum_map_set_exchange t.allocators i a { a with nodes := a.nodes ++ L }
    SgUctAllocator.NuNodes ha
  have hN : SgUctAllocator.NuNodes { a with nodes := a.nodes ++ L }
      = a.NuNodes + L.length := by
    simp [SgUctAllocator.NuNodes]
  simp only [SgUctTree.appendAlloc, SgUctTree.withAlloc, ha, SgUctTree.allocSizes]
  omega

/-- `applyStores` of a publish pair sets the two structural fields. -/
theorem applyStores_publish (n : SgUctNode) (fc : Nat × Nat) (k : Nat) :
    applyStores n (publishStores fc k) = { n with firstChild := fc, nuChildren := k } := rfl

/-- Reading a size through an allocator lookup. -/
theorem sizeAt_of_alloc (t : SgUctTree) (i : Nat) (a : SgUctAllocator)
    (ha : t.allocators[i]? = some a) : t.sizeAt i = a.NuNodes := by
  simp [SgUctTree.sizeAt, ha]

/-- A fresh slot reference is distinct from any reference valid in the
pre-state. -/
theorem fresh_slot_ne (t : SgUctTree) (r : NodeRef) (node : SgUctNode)
    (hnode : t.get? r = some node) (i : Nat) (a : SgUctAllocator)
    (ha : t.allocators[i]? = some a) (d : Nat) :
    NodeRef.alloc i (a.NuNodes + d) ≠ r := by
  intro hc
  subst hc
  obtain ⟨a', ha', hj'⟩ := get?_alloc_elim t i (a.NuNodes + d) node hnode
  rw [ha] at ha'
  cases ha'
  have := get?_lt_length _ _ _ hj'
  have h2 : a.nodes.length + d < a.nodes.length := this
  omega

/-! ### C2: CreateChildren -/

/-- C2: with capacity for `len(moves)` more nodes in the chosen allocator and
`moves` non-empty, `CreateChildren` appends exactly `len(moves)` fresh nodes
contiguously at the end of that allocator (leaving every other allocator's
size unchanged), the `i`-th holding `moves[i]` with zeroed statistics and no
children, and afterwards the parent's `first_child` points at the first
appended slot and its `num_children` equals `len(moves)`. -/
theorem C2_createChildren (t : SgUctTree) (allocatorId : Nat) (r : NodeRef)
    (moves : List Int) (node : SgUctNode) (alloc : SgUctAllocator)
    (hnode : t.get? r = some node)
    (halloc : t.allocators[allocatorId]? = some alloc)
    (hcap : alloc.HasCapacity moves.length = true)
    (hne : moves ≠ []) :
    (t.CreateChildren allocatorId r moves).sizeAt allocatorId
        = alloc.NuNodes + moves.length ∧
    (∀ i, i ≠ allocatorId →
      (t.CreateChildren allocatorId r moves).sizeAt i = t.sizeAt i) ∧
    (∀ (i : Nat) (m : Int), moves[i]? = some m →
      (t.CreateChildren allocatorId r moves).get?
          (NodeRef.alloc allocatorId (alloc.NuNodes + i)) = some (freshNode m)) ∧
    (t.CreateChildren allocatorId r moves).get? r =
      some { node with firstChild := (allocatorId, alloc.NuNodes),
                       nuChildren := moves.length } ∧
    (∀ m : Int, (freshNode m).move = m ∧ (freshNode m).posCount = 0 ∧
      (freshNode m).moveCount = 0 ∧ (freshNode m).mean = 0 ∧
      (freshNode m).raveCount = 0 ∧ (freshNode m).raveMean = 0 ∧
      (freshNode m).nuChildren = 0) := by
  have hres : t.CreateChildren allocatorId r moves =
      (t.appendAlloc allocatorId (moves.map freshNode)).setNode r
        (applyStores node (publishStores (allocatorId, alloc.NuNodes) moves.length)) := by
    simp only [SgUctTree.CreateChildren, hnode, halloc]
  refine ⟨?_, ?_, ?_, ?_, ?_⟩
  · rw [hres, setNode_sizeAt, appendAlloc_sizeAt_same t allocatorId _ alloc halloc,
      sizeAt_of_alloc t allocatorId alloc halloc, List.length_map]
  · intro i hi
    rw [hres, setNode_sizeAt, appendAlloc_sizeAt_other t allocatorId _ i hi]
  · intro i m hm
    have hslot := fresh_slot_ne t r node hnode allocatorId alloc halloc i
    rw [hres, setNode_get?_other _ _ _ _ hslot,
      appendAlloc_get?_new t allocatorId (moves.map freshNode) alloc i halloc]
    simp [List.getElem?_map, hm]
  · have hvalid := appendAlloc_get?_valid t allocatorId (moves.map freshNode) r node hnode
    rw [hres, setNode_get?_same _ _ _ _ hvalid, applyStores_publish]
  · intro m
    exact ⟨rfl, rfl, rfl, rfl, rfl, rfl, rfl⟩

/-- Witness for C2: two children created under the root of a small tree. -/
theorem C2_createChildren_witness :
    (treeW.CreateChildren 0 NodeRef.root [2, 3]).sizeAt 0 = 0 + 2 ∧
    (treeW.CreateChildren 0 NodeRef.root [2, 3]).get? NodeRef.root =
      some { freshNode SG_NULLMOVE with firstChild := (0, 0), nuChildren := 2 } := by
  have h := C2_createChildren treeW 0 NodeRef.root [2, 3] (freshNode SG_NULLMOVE)
    { nodes := [], maxNodes := 4 } (by decide) (by decide) (by decide) (by decide)
  exact ⟨h.1, h.2.2.2.1⟩

/-! ### C5: publication order -/

/-- C5: both child-block publications (`CreateChildren` and `ApplyFilter`)
update the parent by `applyStores` of `publishStores`, whose store sequence
places the `first_child` store strictly before the `num_children` store;
consequently, after any prefix of the publication, a parent whose
`num_children` became non-zero already carries the new `first_child`. -/
theorem C5_publish_order :
    (∀ (t : SgUctTree) (a : Nat) (r : NodeRef) (moves : List Int)
        (node : SgUctNode) (alloc : SgUctAllocator),
      t.get? r = some node → t.allocators[a]? = some alloc →
      (t.CreateChildren a r moves).get? r =
        some (applyStores node (publishStores (a, alloc.NuNodes) moves.length))) ∧
    (∀ (t : SgUctTree) (a : Nat) (r : NodeRef) (f : List Int)
        (node : SgUctNode) (alloc : SgUctAllocator),
      t.get? r = some node → t.allocators[a]? = some alloc →
      node.HasChildren = true →
      (t.ApplyFilter a r f).get? r =
        some (applyStores node (publishStores (a, alloc.NuNodes)
          ((List.filter (fun c => !(f.contains c.move)) (t.childrenOf node)).length)))) ∧
    (∀ (fc : Nat × Nat) (k : Nat), k ≠ 0 →
      ∃ (i j : Nat), i < j ∧
        (publishStores fc k)[i]? = some (ParentStore.storeFirstChild fc) ∧
        (publishStores fc k)[j]? = some (ParentStore.storeNuChildren k)) ∧
    (∀ (n : SgUctNode) (fc : Nat × Nat) (k : Nat) (i : Nat),
      0 < (applyStores n ((publishStores fc k).take i)).nuChildren →
      0 < n.nuChildren ∨ (applyStores n ((publishStores fc k).take i)).firstChild = fc) := by
  refine ⟨?_, ?_, ?_, ?_⟩
  · intro t a r moves node alloc hnode halloc
    have hres : t.CreateChildren a r moves =
        (t.appendAlloc a (moves.map freshNode)).setNode r
          (applyStores node (publishStores (a, alloc.NuNodes) moves.length)) := by
      simp only [SgUctTree.CreateChildren, hnode, halloc]
    rw [hres]
    exact setNode_get?_same _ _ _ _ (appendAlloc_get?_valid t a _ r node hnode)
  · intro t a r f node alloc hnode halloc hhas
    have hres : t.ApplyFilter a r f =
        (t.appendAlloc a
            ((List.filter (fun c => !(f.contains c.move)) (t.childrenOf node)).map
              applyFilterPush)).setNode r
          (applyStores node (publishStores (a, alloc.NuNodes)
            ((List.filter (fun c => !(f.contains c.move)) (t.childrenOf node)).length))) := by
      simp only [SgUctTree.ApplyFilter, hnode, halloc, hhas, if_true]
    rw [hres]
    exact setNode_get?_same _ _ _ _ (appendAlloc_get?_valid t a _ r node hnode)
  · intro fc k _
    exact ⟨0, 1, Nat.zero_lt_one, rfl, rfl⟩
  · intro n fc k i
    match i with
    | 0 => intro h; exact Or.inl h
    | 1 => intro h; exact Or.inl h
    | (j + 2) =>
      intro _
      refine Or.inr ?_
      simp [publishStores, applyStores, applyStore, List.take_succ_cons, List.take_nil]

/-- Witness for C5 on a concrete publication. -/
theorem C5_publish_order_witness :
    (treeW.CreateChildren 0 NodeRef.root [7]).get? NodeRef.root =
      some (applyStores (freshNode SG_NULLMOVE) (publishStores (0, 0) 1)) :=
  C5_publish_order.1 treeW 0 NodeRef.root [7] (freshNode SG_NULLMOVE)
    { nodes := [], maxNodes := 4 } (by decide) (by decide)

/-! ### C1: ApplyFilter and the statistics of surviving children -/

/-- C1: evaluating `ApplyFilter` on a node whose single surviving child
carries statistics (`posCount = 7`): the surviving child in the published new
block is a freshly constructed node with zeroed statistics, because the
source pushes the local `child` onto the vector before `CopyDataFrom` runs,
so the copy lands in a discarded local.  The claimed preservation of
statistics fails on this input. -/
theorem C1_applyFilter_zeroes_stats :
    treeC1.get? (NodeRef.alloc 0 0) = some statChild ∧
    statChild.posCount = 7 ∧ statChild.mean = 1/2 ∧
    (treeC1.ApplyFilter 0 NodeRef.root []).get? NodeRef.root =
      some { rootOneChild with firstChild := (0, 1), nuChildren := 1 } ∧
    (treeC1.ApplyFilter 0 NodeRef.root []).get? (NodeRef.alloc 0 1) =
      some (freshNode 5) ∧
    (freshNode 5).posCount = 0 ∧ (freshNode 5).mean = 0 :=
  ⟨rfl, rfl, rfl, rfl, rfl, rfl, rfl⟩

/-! ### C10: ApplyFilter appends, never reuses -/

/-- C10: `ApplyFilter` never removes or reuses the previous child block.  On
a node without children the tree is returned untouched; otherwise the call
appends exactly the surviving-child count of fresh nodes (so `NuNodes` grows
by that count), every pre-existing slot other than the filtered node itself
keeps its value (the old block stays in its allocator), and the node is
repointed at the freshly appended block, which starts at the old end of the
chosen allocator. -/
theorem C10_applyFilter_appends (t : SgUctTree) (a : Nat) (r : NodeRef)
    (f : List Int) (node : SgUctNode) (alloc : SgUctAllocator)
    (hnode : t.get? r = some node) (halloc : t.allocators[a]? = some alloc) :
    (node.HasChildren = false → t.ApplyFilter a r f = t) ∧
    (node.HasChildren = true →
      (t.ApplyFilter a r f).NuNodes = t.NuNodes +
        ((t.childrenOf node).filter (fun c => !(f.contains c.move))).length ∧
      (∀ p n', p ≠ r → t.get? p = some n' → (t.ApplyFilter a r f).get? p = some n') ∧
      (t.ApplyFilter a r f).get? r =
        some { node with
                 firstChild := (a, alloc.NuNodes)
                 nuChildren := ((t.childrenOf node).filter
                   (fun c => !(f.contains c.move))).length }) := by
  constructor
  · intro hh
    simp only [SgUctTree.ApplyFilter, hnode, halloc, hh]
    simp
  · intro hh
    have hres : t.ApplyFilter a r f =
        (t.appendAlloc a
            (((t.childrenOf node).filter (fun c => !(f.contains c.move))).map
              applyFilterPush)).setNode r
          (applyStores node (publishStores (a, alloc.NuNodes)
            (((t.childrenOf node).filter (fun c => !(f.contains c.move))).length))) := by
      simp only [SgUctTree.ApplyFilter, hnode, halloc, hh, if_true]
    refine ⟨?_, ?_, ?_⟩
    · rw [hres]
      simp only [SgUctTree.NuNodes, setNode_allocSizes]
      rw [appendAlloc_allocSizes t a _ alloc halloc, List.length_map]
      omega
    · intro p n' hp hget
      rw [hres, setNode_get?_other _ _ _ _ hp]
      exact appendAlloc_get?_valid t a _ p n' hget
    · rw [hres, setNode_get?_same _ _ _ _ (appendAlloc_get?_valid t a _ r node hnode),
        applyStores_publish]

/-- Witness for C10 at the concrete filtered tree. -/
theorem C10_applyFilter_appends_witness :
    treeC1.ApplyFilter 0 (NodeRef.alloc 0 0) [] = treeC1 ∧
    (treeC1.ApplyFilter 0 NodeRef.root []).NuNodes = treeC1.NuNodes +
      ((treeC1.childrenOf rootOneChild).filter
        (fun c => !(([] : List Int).contains c.move))).length := by
  constructor
  · exact (C10_applyFilter_appends treeC1 0 (NodeRef.alloc 0 0) [] statChild
      { nodes := [statChild], maxNodes := 10 } rfl rfl).1 rfl
  · exact ((C10_applyFilter_appends treeC1 0 NodeRef.root [] rootOneChild
      { nodes := [statChild], maxNodes := 10 } rfl rfl).2 rfl).1

/-! ### C8: idempotence of ApplyFilter -/

/-- Dropping past an index written by `set`. -/
theorem drop_set_of_lt {α : Type} (l : List α) (j n : Nat) (x : α) (h : j < n) :
    (l.set j x).drop n = l.drop n := by
  induction l generalizing j n with
  | nil => simp
  | cons y ys ih =>
    cases n with
    | zero => omega
    | succ m =>
      cases j with
      | zero => simp [List.set]
      | succ j' =>
        simp only [List.set, List.drop_succ_cons]
        exact ih j' m (by omega)

/-- `setNode` at the root keeps the allocators. -/
theorem setNode_root_allocators (t : SgUctTree) (n : SgUctNode) :
    (t.setNode NodeRef.root n).allocators = t.allocators := rfl

/-- `setNode` at a slot of another allocator keeps an allocator. -/
theorem setNode_allocators_other (t : SgUctTree) (i j : Nat) (n : SgUctNode)
    (i' : Nat) (h : i' ≠ i) :
    (t.setNode (NodeRef.alloc i j) n).allocators[i']? = t.allocators[i']? := by
  rcases ha : t.allocators[i]? with _ | al
  · simp [SgUctTree.setNode, ha]
  · simp only [SgUctTree.setNode, ha]
    exact get?_set_other _ _ _ _ (fun hc => h hc.symm)

/-- `setNode` at a slot of the same allocator: the stored list is `set`. -/
theorem setNode_allocators_same (t : SgUctTree) (i j : Nat) (n : SgUctNode)
    (al : SgUctAllocator) (ha : t.allocators[i]? = some al) :
    (t.setNode (NodeRef.alloc i j) n).allocators[i]? =
      some { al with nodes := al.nodes.set j n } := by
  simp only [SgUctTree.setNode, ha]
  exact get?_set_self _ _ _ (get?_lt_length _ _ _ ha)

/-- After `ApplyFilter` publishes a block, the chosen allocator holds the
new block right after its old contents. -/
theorem applyFilter_alloc_content (t : SgUctTree) (a : Nat) (r : NodeRef) (f : List Int)
    (node : SgUctNode) (alloc : SgUctAllocator)
    (hnode : t.get? r = some node) (halloc : t.allocators[a]? = some alloc)
    (hh : node.HasChildren = true) :
    ∃ al', (t.ApplyFilter a r f).allocators[a]? = some al' ∧
      al'.nodes.drop alloc.NuNodes =
        ((t.childrenOf node).filter (fun c => !(f.contains c.move))).map applyFilterPush := by
  have hres : t.ApplyFilter a r f =
      (t.appendAlloc a
          (((t.childrenOf node).filter (fun c => !(f.contains c.move))).map
            applyFilterPush)).setNode r
        (applyStores node (publishStores (a, alloc.NuNodes)
          (((t.childrenOf node).filter (fun c => !(f.contains c.move))).length))) := by
    simp only [SgUctTree.ApplyFilter, hnode, halloc, hh, if_true]
  rw [hres]
  have happ := appendAlloc_allocators_same t a
    (((t.childrenOf node).filter (fun c => !(f.contains c.move))).map applyFilterPush)
    alloc halloc
  cases r with
  | root =>
    refine ⟨{ alloc with nodes := alloc.nodes ++
        ((t.childrenOf node).filter (fun c => !(f.contains c.move))).map applyFilterPush },
      ?_, ?_⟩
    · rw [setNode_root_allocators]
      exact happ
    · show ((alloc.nodes ++ _).drop alloc.nodes.length) = _
      rw [List.drop_left]
  | alloc i' j' =>
    by_cases hii : i' = a
    · subst hii
      obtain ⟨al0, hal0, hj'⟩ := get?_alloc_elim t i' j' node hnode
      rw [halloc] at hal0
      cases hal0
      have hj : j' < alloc.nodes.length := get?_lt_length _ _ _ hj'
      refine ⟨_, setNode_allocators_same _ i' j' _ _ happ, ?_⟩
      show (((alloc.nodes ++ _).set j' _).drop alloc.nodes.length) = _
      rw [drop_set_of_lt _ _ _ _ hj, List.drop_left]
    · refine ⟨{ alloc with nodes := alloc.nodes ++
          ((t.childrenOf node).filter (fun c => !(f.contains c.move))).map applyFilterPush },
        ?_, ?_⟩
      · rw [setNode_allocators_other _ i' j' _ a (fun hc => hii hc.symm)]
        exact happ
      · show ((alloc.nodes ++ _).drop alloc.nodes.length) = _
        rw [List.drop_left]

/-- Projections of a published parent node. -/
theorem publish_firstChild (n : SgUctNode) (fc : Nat × Nat) (k : Nat) :
    (applyStores n (publishStores fc k)).firstChild = fc := rfl

/-- Projections of a published parent node. -/
theorem publish_nuChildren (n : SgUctNode) (fc : Nat × Nat) (k : Nat) :
    (applyStores n (publishStores fc k)).nuChildren = k := rfl

/-- `HasChildren` of a published parent node. -/
theorem publish_HasChildren (n : SgUctNode) (fc : Nat × Nat) (k : Nat) :
    (applyStores n (publishStores fc k)).HasChildren = decide (0 < k) := rfl

/-- The child block a published parent sees: determined by the target
allocator's contents from the block start. -/
theorem childrenOf_publish (t' : SgUctTree) (node : SgUctNode) (fc : Nat × Nat) (k : Nat)
    (al' : SgUctAllocator) (hal' : t'.allocators[fc.1]? = some al')
    (blk : List SgUctNode) (hblk : al'.nodes.drop fc.2 = blk) (hk : blk.length = k) :
    t'.childrenOf (applyStores node (publishStores fc k)) = blk := by
  by_cases h0 : k = 0
  · subst h0
    have hb : blk = [] := List.length_eq_zero.1 hk
    subst hb
    simp [SgUctTree.childrenOf, publish_HasChildren]
  · rw [SgUctTree.childrenOf, publish_HasChildren]
    have : (decide (0 < k)) = true := by
      simp only [decide_eq_true_eq]
      omega
    rw [this]
    simp only [if_true, publish_firstChild, publish_nuChildren, hal', hblk]
    rw [← hk]
    exact List.take_length _

/-- The child move list published by one `ApplyFilter` call: exactly the
surviving moves. -/
theorem applyFilter_childMoves (t : SgUctTree) (a : Nat) (r : NodeRef) (f : List Int)
    (node : SgUctNode) (alloc : SgUctAllocator)
    (hnode : t.get? r = some node) (halloc : t.allocators[a]? = some alloc)
    (hh : node.HasChildren = true) :
    (t.ApplyFilter a r f).childMoves r =
      ((t.childrenOf node).filter (fun c => !(f.contains c.move))).map SgUctNode.move := by
  have hget1 := ((C10_applyFilter_appends t a r f node alloc hnode halloc).2 hh).2.2
  rw [← applyStores_publish] at hget1
  obtain ⟨al', hal', hdrop⟩ := applyFilter_alloc_content t a r f node alloc hnode halloc hh
  simp only [SgUctTree.childMoves, hget1]
  rw [childrenOf_publish (t.ApplyFilter a r f) node (a, alloc.NuNodes) _ al' hal' _ hdrop
    (by rw [List.length_map])]
  rw [List.map_map]
  rfl

/-- C8: applying `ApplyFilter` to a node a second time with the same filter
yields a child block with the same move list — and hence the same move set —
as after the first application; the root filter is idempotent on the child
set. -/
theorem C8_applyFilter_idempotent (t : SgUctTree) (a : Nat) (r : NodeRef) (f : List Int) :
    ((t.ApplyFilter a r f).ApplyFilter a r f).childMoves r =
      (t.ApplyFilter a r f).childMoves r := by
  rcases hnode : t.get? r with _ | node
  · have h1 : t.ApplyFilter a r f = t := by
      simp only [SgUctTree.ApplyFilter, hnode]
    rw [h1, h1]
  rcases halloc : t.allocators[a]? with _ | alloc
  · have h1 : t.ApplyFilter a r f = t := by
      simp only [SgUctTree.ApplyFilter, hnode, halloc]
    rw [h1, h1]
  by_cases hh : node.HasChildren = true
  case neg =>
    have h1 : t.ApplyFilter a r f = t :=
      (C10_applyFilter_appends t a r f node alloc hnode halloc).1
        (Bool.not_eq_true _ ▸ (by simpa using hh))
    rw [h1, h1]
  case pos =>
    have hget1 := ((C10_applyFilter_appends t a r f node alloc hnode halloc).2 hh).2.2
    rw [← applyStores_publish] at hget1
    obtain ⟨al', hal', hdrop⟩ := applyFilter_alloc_content t a r f node alloc hnode halloc hh
    have hCM1 := applyFilter_childMoves t a r f node alloc hnode halloc hh
    by_cases hk : ((t.childrenOf node).filter (fun c => !(f.contains c.move))).length = 0
    · have hh1 : (applyStores node (publishStores (a, alloc.NuNodes)
          ((t.childrenOf node).filter (fun c => !(f.contains c.move))).length)).HasChildren
          = false := by
        rw [publish_HasChildren, hk]
        decide
      have h2 : (t.ApplyFilter a r f).ApplyFilter a r f = t.ApplyFilter a r f :=
        (C10_applyFilter_appends (t.ApplyFilter a r f) a r f _ al' hget1 hal').1 hh1
      rw [h2]
    · have hh1 : (applyStores node (publishStores (a, alloc.NuNodes)
          ((t.childrenOf node).filter (fun c => !(f.contains c.move))).length)).HasChildren
          = true := by
        rw [publish_HasChildren]
        simp only [decide_eq_true_eq]
        omega
      have hCM2 := applyFilter_childMoves (t.ApplyFilter a r f) a r f _ al' hget1 hal' hh1
      rw [hCM2, hCM1]
      -- The second call reads the block the first call published.
      have hchild := childrenOf_publish (t.ApplyFilter a r f) node (a, alloc.NuNodes) _
        al' hal' _ hdrop (by rw [List.length_map])
      rw [hchild]
      have hfilter : (((t.childrenOf node).filter (fun c => !(f.contains c.move))).map
          applyFilterPush).filter (fun c => !(f.contains c.move)) =
          ((t.childrenOf node).filter (fun c => !(f.contains c.move))).map
            applyFilterPush := by
        rw [List.filter_eq_self]
        intro x hx
        rcases List.mem_map.1 hx with ⟨c, hc, rfl⟩
        have hpc := (List.mem_filter.1 hc).2
        exact hpc
      rw [hfilter, List.map_map]
      rfl

/-! ### C9: parameter command errors -/

/-- A set branch that fails leaves the search parameters unchanged. -/
theorem setBranch_error_unchanged {α : Type} (s : SearchParams)
    (parsed : Except String α) (setter : SearchParams → α → SearchParams)
    (h : (setBranch s parsed setter).1.isSome = true) :
    (setBranch s parsed setter).2 = s := by
  cases parsed <;> simp [setBranch] at h ⊢

/-- A set branch that fails leaves the player parameters unchanged. -/
theorem setBranchP_error_unchanged {α : Type} (p : PlayerParams)
    (parsed : Except String α) (setter : PlayerParams → α → PlayerParams)
    (h : (setBranchP p parsed setter).1.isSome = true) :
    (setBranchP p parsed setter).2 = p := by
  cases parsed <;> simp [setBranchP] at h ⊢

/-- An unrecognised search parameter key is rejected with the thrown
message, the parameters untouched. -/
theorem cmdParamSearch_unknown (s : SearchParams) (key : String) (v : GtpArgVal)
    (hkey : key ∉ searchParamKeys) :
    GoUctCommands.CmdParamSearch s key v = (some ("unknown parameter: " ++ key), s) := by
  simp only [searchParamKeys, List.mem_cons, List.not_mem_nil, or_false] at hkey
  push_neg at hkey
  obtain ⟨h1, h2, h3, h4, h5, h6, h7, h8, h9, h10, h11, h12, h13, h14, h15, h16⟩ := hkey
  simp only [GoUctCommands.CmdParamSearch, if_neg h1, if_neg h2, if_neg h3, if_neg h4,
    if_neg h5, if_neg h6, if_neg h7, if_neg h8, if_neg h9, if_neg h10, if_neg h11,
    if_neg h12, if_neg h13, if_neg h14, if_neg h15, if_neg h16]

/-- An unrecognised player parameter key is rejected with the thrown message,
the parameters untouched. -/
theorem cmdParamPlayer_unknown (p : PlayerParams) (key : String) (v : GtpArgVal)
    (hkey : key ∉ playerParamKeys) :
    GoUctCommands.CmdParamPlayer p key v = (some ("unknown parameter: " ++ key), p) := by
  simp only [playerParamKeys, List.mem_cons, List.not_mem_nil, or_false] at hkey
  push_neg at hkey
  obtain ⟨h1, h2, h3, h4, h5, h6, h7, h8, h9, h10, h11, h12⟩ := hkey
  simp only [GoUctCommands.CmdParamPlayer, if_neg h1, if_neg h2, if_neg h3, if_neg h4,
    if_neg h5, if_neg h6, if_neg h7, if_neg h8, if_neg h9, if_neg h10, if_neg h11,
    if_neg h12]

/-- C9: setting a parameter below its stated minimum (`max_games`,
`max_nodes`, `expand_threshold`, `number_threads`, `number_playouts` or
`live_gfx_interval` below 1), or naming an unknown parameter key or enum
value, fails with an error at set time, and any failing set command leaves
every parameter unchanged. -/
theorem C9_param_errors :
    (∀ (s : SearchParams) (n : Int), n < 1 →
      ∀ key, key ∈ (["expand_threshold", "number_threads", "number_playouts",
          "live_gfx_interval"] : List String) →
        (GoUctCommands.CmdParamSearch s key (GtpArgVal.intVal n)).1.isSome = true ∧
        (GoUctCommands.CmdParamSearch s key (GtpArgVal.intVal n)).2 = s) ∧
    (∀ (p : PlayerParams) (n : Int), n < 1 →
      ∀ key, key ∈ (["max_games", "max_nodes"] : List String) →
        (GoUctCommands.CmdParamPlayer p key (GtpArgVal.intVal n)).1.isSome = true ∧
        (GoUctCommands.CmdParamPlayer p key (GtpArgVal.intVal n)).2 = p) ∧
    (∀ (s : SearchParams) (key : String) (v : GtpArgVal), key ∉ searchParamKeys →
      GoUctCommands.CmdParamSearch s key v = (some ("unknown parameter: " ++ key), s)) ∧
    (∀ (p : PlayerParams) (key : String) (v : GtpArgVal), key ∉ playerParamKeys →
      GoUctCommands.CmdParamPlayer p key v = (some ("unknown parameter: " ++ key), p)) ∧
    (∀ (s : SearchParams) (w : String),
      strToLower w ∉ (["none", "counts", "sequence"] : List String) →
      (GoUctCommands.CmdParamSearch s "live_gfx" (GtpArgVal.strVal w)).1.isSome = true ∧
      (GoUctCommands.CmdParamSearch s "live_gfx" (GtpArgVal.strVal w)).2 = s) ∧
    (∀ (p : PlayerParams) (w : String),
      strToLower w ∉ (["none", "even", "default"] : List String) →
      (GoUctCommands.CmdParamPlayer p "prior_knowledge" (GtpArgVal.strVal w)).1.isSome
        = true ∧
      (GoUctCommands.CmdParamPlayer p "prior_knowledge" (GtpArgVal.strVal w)).2 = p) ∧
    (∀ (s : SearchParams) (key : String) (v : GtpArgVal),
      (GoUctCommands.CmdParamSearch s key v).1.isSome = true →
      (GoUctCommands.CmdParamSearch s key v).2 = s) ∧
    (∀ (p : PlayerParams) (key : String) (v : GtpArgVal),
      (GoUctCommands.CmdParamPlayer p key v).1.isSome = true →
      (GoUctCommands.CmdParamPlayer p key v).2 = p) := by
  refine ⟨?_, ?_, ?_, ?_, ?_, ?_, ?_, ?_⟩
  · intro s n hn key hkey
    fin_cases hkey <;>
      constructor <;>
        simp [GoUctCommands.CmdParamSearch, setBranch, SizeTypeArg, IntArg, hn]
  · intro p n hn key hkey
    fin_cases hkey <;>
      constructor <;>
        simp [GoUctCommands.CmdParamPlayer, setBranchP, SizeTypeArg, hn]
  · exact cmdParamSearch_unknown
  · exact cmdParamPlayer_unknown
  · intro s w hw
    simp only [List.mem_cons, List.not_mem_nil, or_false] at hw
    push_neg at hw
    obtain ⟨h1, h2, h3⟩ := hw
    constructor <;>
      simp [GoUctCommands.CmdParamSearch, setBranch, LiveGfxArg, ArgToLower,
        Except.bind, bind, h1, h2, h3]
  · intro p w hw
    simp only [List.mem_cons, List.not_mem_nil, or_false] at hw
    push_neg at hw
    obtain ⟨h1, h2, h3⟩ := hw
    constructor <;>
      simp [GoUctCommands.CmdParamPlayer, setBranchP, PriorKnowledgeArg, ArgToLower,
        Except.bind, bind, h1, h2, h3]
  · intro s key v h
    by_cases hk : key ∈ searchParamKeys
    · revert h
      fin_cases hk <;>
        (simp only [GoUctCommands.CmdParamSearch]
         norm_num
         intro h
         exact setBranch_error_unchanged _ _ _ h)
    · rw [cmdParamSearch_unknown s key v hk]
  · intro p key v h
    by_cases hk : key ∈ playerParamKeys
    · revert h
      fin_cases hk <;>
        (simp only [GoUctCommands.CmdParamPlayer]
         norm_num
         intro h
         exact setBranchP_error_unchanged _ _ _ h)
    · rw [cmdParamPlayer_unknown p key v hk]

/-- Witness for C9 on concrete failing commands. -/
theorem C9_param_errors_witness :
    ((GoUctCommands.CmdParamSearch searchParams0 "expand_threshold"
        (GtpArgVal.intVal 0)).1.isSome = true ∧
      (GoUctCommands.CmdParamSearch searchParams0 "expand_threshold"
        (GtpArgVal.intVal 0)).2 = searchParams0) ∧
    GoUctCommands.CmdParamPlayer playerParams0 "bogus_key" (GtpArgVal.intVal 3) =
      (some ("unknown parameter: " ++ "bogus_key"), playerParams0) ∧
    ((GoUctCommands.CmdParamSearch searchParams0 "live_gfx"
        (GtpArgVal.strVal "zzz")).1.isSome = true ∧
      (GoUctCommands.CmdParamSearch searchParams0 "live_gfx"
        (GtpArgVal.strVal "zzz")).2 = searchParams0) := by
  refine ⟨?_, ?_, ?_⟩
  · exact C9_param_errors.1 searchParams0 0 (by decide) "expand_threshold" (by simp)
  · exact C9_param_errors.2.2.2.1 playerParams0 "bogus_key" (GtpArgVal.intVal 3)
      (by simp [playerParamKeys])
  · exact C9_param_errors.2.2.2.2.1 searchParams0 "zzz" (by decide)

/-! ### Subtree copy: preservation lemmas -/

/-- A successful slot lookup is below the allocator size. -/
theorem valid_lt_sizeAt (t : SgUctTree) (i j : Nat) (n : SgUctNode)
    (h : t.get? (NodeRef.alloc i j) = some n) : j < t.sizeAt i := by
  obtain ⟨a, ha, hj⟩ := get?_alloc_elim t i j n h
  rw [sizeAt_of_alloc t i a ha]
  exact get?_lt_length _ _ _ hj

/-- An in-range index dereferences. -/
theorem lt_length_getElem?_isSome {α : Type} (l : List α) (i : Nat) (h : i < l.length) :
    ∃ x, l[i]? = some x := by
  induction l generalizing i with
  | nil => simp at h
  | cons y ys ih =>
    cases i with
    | zero => exact ⟨y, by simp⟩
    | succ j =>
      obtain ⟨x, hx⟩ := ih j (by simpa using h)
      exact ⟨x, by simpa using hx⟩

/-- A slot below the allocator size dereferences. -/
theorem get?_of_lt_sizeAt (t : SgUctTree) (i j : Nat) (h : j < t.sizeAt i) :
    ∃ n, t.get? (NodeRef.alloc i j) = some n := by
  rcases ha : t.allocators[i]? with _ | a
  · simp [SgUctTree.sizeAt, ha] at h
  · rw [sizeAt_of_alloc t i a ha] at h
    obtain ⟨n, hn⟩ := lt_length_getElem?_isSome a.nodes j h
    exact ⟨n, by simp [SgUctTree.get?, ha, hn]⟩

/-- With the warn flag off, no truncation message is printed. -/
theorem truncMsgs_warn_false (c t a : Bool) : truncMsgs c t a false = [] := by
  simp [truncMsgs]

/-- `appendAlloc` never shrinks an allocator. -/
theorem appendAlloc_sizeAt_le (t : SgUctTree) (a : Nat) (L : List SgUctNode) (i : Nat) :
    t.sizeAt i ≤ (t.appendAlloc a L).sizeAt i := by
  by_cases hii : i = a
  · subst hii
    rcases ha : t.allocators[i]? with _ | al
    · rw [appendAlloc_invalid t i L ha]
    · rw [appendAlloc_sizeAt_same t i L al ha]
      omega
  · rw [appendAlloc_sizeAt_other t a L i hii]

mutual

/-- Structural facts preserved by `copySubtree`: the allocator count, the
allocator sizes (monotone), the warn flag (never re-raised), and the message
list (untouched when the warn flag is already off). -/
theorem copy_pres_view (env : TruncEnv) (v : UctView) (r : NodeRef) (ctx : CopyCtx) :
    (copySubtree env v r ctx).target.NuAllocators = ctx.target.NuAllocators ∧
    (∀ i, ctx.target.sizeAt i ≤ (copySubtree env v r ctx).target.sizeAt i) ∧
    ((copySubtree env v r ctx).warn = true → ctx.warn = true) ∧
    (ctx.warn = false → (copySubtree env v r ctx).msgs = ctx.msgs) := by
  cases v with
  | mk data children =>
    cases children with
    | nil =>
      exact ⟨setNode_NuAllocators _ _ _,
        fun i => le_of_eq (setNode_sizeAt _ _ _ i).symm,
        fun h => h, fun _ => rfl⟩
    | cons c cs =>
      simp only [copySubtree]
      split
      · refine ⟨?_, fun i => ?_, ?_, fun hw => ?_⟩
        · show ((_ : SgUctTree).setNode _ _).NuAllocators = _
          rw [setNode_NuAllocators, setNode_NuAllocators]
        · show ctx.target.sizeAt i ≤ ((_ : SgUctTree).setNode _ _).sizeAt i
          rw [setNode_sizeAt, setNode_sizeAt]
        · intro h
          exact absurd h (by simp)
        · show ctx.msgs ++ truncMsgs _ _ _ ctx.warn = ctx.msgs
          rw [hw, truncMsgs_warn_false]
          simp
      · refine ⟨?_, fun i => ?_, ?_, fun hw => ?_⟩
        · refine ((copy_pres_forest env (UctForest.cons c cs) _ _ _ _).1).trans ?_
          show ((_ : SgUctTree).appendAlloc _ _).NuAllocators = _
          rw [appendAlloc_NuAllocators, setNode_NuAllocators, setNode_NuAllocators]
        · refine le_trans ?_ ((copy_pres_forest env (UctForest.cons c cs) _ _ _ _).2.1 i)
          show ctx.target.sizeAt i ≤ ((_ : SgUctTree).appendAlloc _ _).sizeAt i
          refine le_trans ?_ (appendAlloc_sizeAt_le _ _ _ i)
          rw [setNode_sizeAt, setNode_sizeAt]
        · intro h
          have h2 := (copy_pres_forest env (UctForest.cons c cs) _ _ _ _).2.2.1 h
          exact h2
        · refine ((copy_pres_forest env (UctForest.cons c cs) _ _ _ _).2.2.2 ?_).trans ?_
          · exact hw
          · show ctx.msgs ++ truncMsgs _ _ _ ctx.warn = ctx.msgs
            rw [hw, truncMsgs_warn_false]
            simp
termination_by sizeOf v

/-- Structural facts preserved by `copyForest`. -/
theorem copy_pres_forest (env : TruncEnv) (vs : UctForest) (blockAlloc first i0 : Nat)
    (ctx : CopyCtx) :
    (copyForest env vs blockAlloc first i0 ctx).target.NuAllocators
        = ctx.target.NuAllocators ∧
    (∀ i, ctx.target.sizeAt i
        ≤ (copyForest env vs blockAlloc first i0 ctx).target.sizeAt i) ∧
    ((copyForest env vs blockAlloc first i0 ctx).warn = true → ctx.warn = true) ∧
    (ctx.warn = false →
      (copyForest env vs blockAlloc first i0 ctx).msgs = ctx.msgs) := by
  cases vs with
  | nil =>
    exact ⟨rfl, fun i => le_rfl, fun h => h, fun _ => rfl⟩
  | cons v rest =>
    simp only [copyForest]
    have hv := copy_pres_view env v (NodeRef.alloc blockAlloc (first + i0))
      { ctx with allocId := if ctx.target.NuAllocators ≤ ctx.allocId + 1 then 0
          else ctx.allocId + 1 }
    have hf := copy_pres_forest env rest blockAlloc first (i0 + 1)
      (copySubtree env v (NodeRef.alloc blockAlloc (first + i0))
        { ctx with allocId := if ctx.target.NuAllocators ≤ ctx.allocId + 1 then 0
            else ctx.allocId + 1 })
    refine ⟨hf.1.trans hv.1, fun i => le_trans (hv.2.1 i) (hf.2.1 i),
      fun h => hv.2.2.1 (hf.2.2.1 h), fun hw => ?_⟩
    have hc1 : (copySubtree env v (NodeRef.alloc blockAlloc (first + i0))
        { ctx with allocId := if ctx.target.NuAllocators ≤ ctx.allocId + 1 then 0
            else ctx.allocId + 1 }).warn = false := by
      rcases hcw : (copySubtree env v (NodeRef.alloc blockAlloc (first + i0))
          { ctx with allocId := if ctx.target.NuAllocators ≤ ctx.allocId + 1 then 0
              else ctx.allocId + 1 }).warn
      · rfl
      · have h2 := hv.2.2.1 hcw
        simp [hw] at h2
    rw [hf.2.2.2 hc1, hv.2.2.2 hw]
termination_by sizeOf vs

end

mutual

/-- `copySubtree` writes only the node at `r` and freshly appended slots:
every other pre-existing node keeps its value. -/
theorem copy_frame_view (env : TruncEnv) (v : UctView) (r : NodeRef) (ctx : CopyCtx)
    (p : NodeRef) (n' : SgUctNode) (hp : ctx.target.get? p = some n') (hpr : p ≠ r) :
    (copySubtree env v r ctx).target.get? p = some n' := by
  cases v with
  | mk data children =>
    cases children with
    | nil =>
      show ((ctx.target.setNode r _)).get? p = some n'
      rw [setNode_get?_other _ _ _ _ hpr]
      exact hp
    | cons c cs =>
      simp only [copySubtree]
      split
      · show ((_ : SgUctTree).setNode _ _).get? p = some n'
        rw [setNode_get?_other _ _ _ _ hpr, setNode_get?_other _ _ _ _ hpr]
        exact hp
      · refine copy_frame_forest env (UctForest.cons c cs) _ _ _ _ p n' ?_ ?_
        · exact appendAlloc_get?_valid _ _ _ p n'
            (by rw [setNode_get?_other _ _ _ _ hpr, setNode_get?_other _ _ _ _ hpr]
                exact hp)
        · intro e _ he hcontra
          subst hcontra
          have hlt := valid_lt_sizeAt _ _ _ _ hp
          rw [setNode_sizeAt] at hlt
          omega
termination_by sizeOf v

/-- `copyForest` writes only the sibling slots it is given and freshly
appended slots. -/
theorem copy_frame_forest (env : TruncEnv) (vs : UctForest) (blockAlloc first i0 : Nat)
    (ctx : CopyCtx) (p : NodeRef) (n' : SgUctNode)
    (hp : ctx.target.get? p = some n')
    (hslots : ∀ e, i0 ≤ e → e < i0 + vs.length →
      p ≠ NodeRef.alloc blockAlloc (first + e)) :
    (copyForest env vs blockAlloc first i0 ctx).target.get? p = some n' := by
  cases vs with
  | nil => exact hp
  | cons v rest =>
    simp only [copyForest]
    refine copy_frame_forest env rest blockAlloc first (i0 + 1) _ p n' ?_ ?_
    · refine copy_frame_view env v (NodeRef.alloc blockAlloc (first + i0))
        { ctx with allocId := if ctx.target.NuAllocators ≤ ctx.allocId + 1 then 0
            else ctx.allocId + 1 } p n' hp ?_
      exact hslots i0 le_rfl (by
        show i0 < i0 + (UctForest.cons v rest).length
        simp only [UctForest.length]
        omega)
    · intro e he1 he2
      refine hslots e (by omega) ?_
      show e < i0 + (UctForest.cons v rest).length
      simp only [UctForest.length] at he2 ⊢
      omega
termination_by sizeOf vs

end

/-- The messages of one truncating node: non-empty and one line per reason,
in program order. -/
theorem truncMsgs_spec (c t a : Bool) (htr : (!c || t || a) = true) :
    truncMsgs c t a true ≠ [] ∧
      List.Sublist (truncMsgs c t a true) [capacityMsg, timeMsg, abortMsg] := by
  cases c <;> cases t <;> cases a <;> simp_all [truncMsgs]

/-- With no truncation reason, no message is printed. -/
theorem truncMsgs_none (c t a w : Bool) (htr : (!c || t || a) = false) :
    truncMsgs c t a w = [] := by
  cases c <;> cases t <;> cases a <;> simp_all [truncMsgs]

mutual

/-- Message accounting for `copySubtree` under a raised warn flag: either no
truncation happened (warn still raised, no messages), or the warn flag is now
off and exactly the first truncating node's per-reason messages (between one
and three lines, a sublist of the three known lines) were appended. -/
theorem copy_msgs_view (env : TruncEnv) (v : UctView) (r : NodeRef) (ctx : CopyCtx)
    (hw : ctx.warn = true) :
    ((copySubtree env v r ctx).warn = true ∧
      (copySubtree env v r ctx).msgs = ctx.msgs) ∨
    ((copySubtree env v r ctx).warn = false ∧
      ∃ L, (copySubtree env v r ctx).msgs = ctx.msgs ++ L ∧ L ≠ [] ∧
        List.Sublist L [capacityMsg, timeMsg, abortMsg]) := by
  cases v with
  | mk data children =>
    cases children with
    | nil => exact Or.inl ⟨hw, rfl⟩
    | cons c cs =>
      simp only [copySubtree]
      split
      · rename_i htr
        refine Or.inr ⟨rfl, truncMsgs
          (copyCapacity (ctx.target.setNode r
            (((ctx.target.get? r).getD (freshNode SG_NULLMOVE)).copyDataFrom data))
            ctx.allocId (UctForest.cons c cs).length)
          (env.timeOutAt ctx.step) (env.abortAt ctx.step) true,
          ?_, ?_, ?_⟩
        · show ctx.msgs ++ truncMsgs _ _ _ ctx.warn = _
          rw [hw]
        · exact (truncMsgs_spec _ _ _ htr).1
        · exact (truncMsgs_spec _ _ _ htr).2
      · rename_i htr
        have hmz : truncMsgs
            (copyCapacity (ctx.target.setNode r
              (((ctx.target.get? r).getD (freshNode SG_NULLMOVE)).copyDataFrom data))
              ctx.allocId (UctForest.cons c cs).length)
            (env.timeOutAt ctx.step) (env.abortAt ctx.step) ctx.warn = [] :=
          truncMsgs_none _ _ _ _ (by
            revert htr
            cases (!copyCapacity (ctx.target.setNode r
                (((ctx.target.get? r).getD (freshNode SG_NULLMOVE)).copyDataFrom data))
                ctx.allocId (UctForest.cons c cs).length ||
              env.timeOutAt ctx.step || env.abortAt ctx.step) <;> simp)
        have hres := copy_msgs_forest env (UctForest.cons c cs) ctx.allocId
          ((ctx.target.setNode r
            (((ctx.target.get? r).getD (freshNode SG_NULLMOVE)).copyDataFrom data)).sizeAt
            ctx.allocId) 0
          { target := ((ctx.target.setNode r
                (((ctx.target.get? r).getD (freshNode SG_NULLMOVE)).copyDataFrom data)).setNode r
                { (((ctx.target.get? r).getD (freshNode SG_NULLMOVE)).copyDataFrom data) with
                    firstChild := (ctx.allocId,
                      ((ctx.target.setNode r
                        (((ctx.target.get? r).getD
                          (freshNode SG_NULLMOVE)).copyDataFrom data)).sizeAt ctx.allocId))
                    nuChildren := (UctForest.cons c cs).length }).appendAlloc
              ctx.allocId (List.replicate (UctForest.cons c cs).length (freshNode SG_NULLMOVE))
            allocId := ctx.allocId
            warn := ctx.warn
            msgs := ctx.msgs ++ truncMsgs
              (copyCapacity (ctx.target.setNode r
                (((ctx.target.get? r).getD (freshNode SG_NULLMOVE)).copyDataFrom data))
                ctx.allocId (UctForest.cons c cs).length)
              (env.timeOutAt ctx.step) (env.abortAt ctx.step) ctx.warn
            step := ctx.step + 1 } hw
        rw [hmz, List.append_nil] at hres ⊢
        exact hres
termination_by sizeOf v

/-- Message accounting for `copyForest` under a raised warn flag. -/
theorem copy_msgs_forest (env : TruncEnv) (vs : UctForest) (blockAlloc first i0 : Nat)
    (ctx : CopyCtx) (hw : ctx.warn = true) :
    ((copyForest env vs blockAlloc first i0 ctx).warn = true ∧
      (copyForest env vs blockAlloc first i0 ctx).msgs = ctx.msgs) ∨
    ((copyForest env vs blockAlloc first i0 ctx).warn = false ∧
      ∃ L, (copyForest env vs blockAlloc first i0 ctx).msgs = ctx.msgs ++ L ∧ L ≠ [] ∧
        List.Sublist L [capacityMsg, timeMsg, abortMsg]) := by
  cases vs with
  | nil => exact Or.inl ⟨hw, rfl⟩
  | cons v rest =>
    simp only [copyForest]
    have hv := copy_msgs_view env v (NodeRef.alloc blockAlloc (first + i0))
      { ctx with allocId := if ctx.target.NuAllocators ≤ ctx.allocId + 1 then 0
          else ctx.allocId + 1 } hw
    rcases hv with ⟨hw1, hm1⟩ | ⟨hw1, L, hm1, hL1, hsub1⟩
    · have hf := copy_msgs_forest env rest blockAlloc first (i0 + 1)
        (copySubtree env v (NodeRef.alloc blockAlloc (first + i0))
          { ctx with allocId := if ctx.target.NuAllocators ≤ ctx.allocId + 1 then 0
              else ctx.allocId + 1 }) hw1
      rcases hf with ⟨hwf, hmf⟩ | ⟨hwf, L, hmf, hLf, hsubf⟩
      · exact Or.inl ⟨hwf, by rw [hmf, hm1]⟩
      · exact Or.inr ⟨hwf, L, by rw [hmf, hm1], hLf, hsubf⟩
    · have hpres := copy_pres_forest env rest blockAlloc first (i0 + 1)
        (copySubtree env v (NodeRef.alloc blockAlloc (first + i0))
          { ctx with allocId := if ctx.target.NuAllocators ≤ ctx.allocId + 1 then 0
              else ctx.allocId + 1 })
      have hwf : (copyForest env rest blockAlloc first (i0 + 1)
          (copySubtree env v (NodeRef.alloc blockAlloc (first + i0))
            { ctx with allocId := if ctx.target.NuAllocators ≤ ctx.allocId + 1 then 0
                else ctx.allocId + 1 })).warn = false := by
        rcases hcw : (copyForest env rest blockAlloc first (i0 + 1)
            (copySubtree env v (NodeRef.alloc blockAlloc (first + i0))
              { ctx with allocId := if ctx.target.NuAllocators ≤ ctx.allocId + 1 then 0
                  else ctx.allocId + 1 })).warn
        · rfl
        · have h2 := hpres.2.2.1 hcw
          rw [hw1] at h2
          cases h2
      exact Or.inr ⟨hwf, L, by rw [hpres.2.2.2 hw1, hm1], hL1, hsub1⟩
termination_by sizeOf vs

end

/-- `set` past the end of a list is a no-op. -/
theorem set_oob {α : Type} (l : List α) (j : Nat) (x : α) (h : l.length ≤ j) :
    l.set j x = l := by
  induction l generalizing j with
  | nil => rfl
  | cons y ys ih =>
    cases j with
    | zero => simp at h
    | succ k => simp [List.set, ih k (by simpa using h)]

/-- An element looked up by index is a member. -/
theorem mem_of_getElem? {α : Type} (l : List α) (i : Nat) (x : α) (h : l[i]? = some x) :
    x ∈ l := by
  induction l generalizing i with
  | nil => cases h
  | cons y ys ih =>
    cases i with
    | zero =>
      have : y = x := by simpa using h
      simp [this]
    | succ j =>
      have := ih j (by simpa using h)
      simp [this]

/-- `setNode` at a dangling reference leaves the lookup dangling. -/
theorem setNode_get?_none (t : SgUctTree) (r : NodeRef) (n : SgUctNode)
    (h : t.get? r = none) : (t.setNode r n).get? r = none := by
  cases r with
  | root => simp [SgUctTree.get?] at h
  | alloc i j =>
    rcases ha : t.allocators[i]? with _ | a
    · simp only [SgUctTree.setNode, ha]
      exact h
    · simp only [SgUctTree.get?, ha] at h
      have hj : a.nodes.length ≤ j := by
        by_contra hc
        obtain ⟨x, hx⟩ := lt_length_getElem?_isSome a.nodes j (by omega)
        rw [hx] at h
        cases h
      simp only [SgUctTree.setNode, ha, SgUctTree.get?]
      rw [get?_set_self _ _ _ (get?_lt_length _ _ _ ha)]
      rw [set_oob _ _ _ hj]
      exact h

/-- Every stored node after `setNode` is the written one or an original. -/
theorem setNode_get?_cases (t : SgUctTree) (r : NodeRef) (x : SgUctNode)
    (p : NodeRef) (n : SgUctNode) (hp : (t.setNode r x).get? p = some n) :
    n = x ∨ t.get? p = some n := by
  by_cases hpr : p = r
  · subst hpr
    rcases hr : t.get? p with _ | n0
    · rw [setNode_get?_none t p x hr] at hp
      cases hp
    · rw [setNode_get?_same t p x n0 hr] at hp
      cases hp
      exact Or.inl rfl
  · rw [setNode_get?_other t r x p hpr] at hp
    exact Or.inr hp

/-- Every stored node after an append is an original or an appended one. -/
theorem appendAlloc_get?_cases (t : SgUctTree) (a : Nat) (L : List SgUctNode)
    (p : NodeRef) (n : SgUctNode) (hp : (t.appendAlloc a L).get? p = some n) :
    t.get? p = some n ∨ n ∈ L := by
  cases p with
  | root =>
    left
    simpa [SgUctTree.get?, appendAlloc_root] using hp
  | alloc i j =>
    by_cases hii : i = a
    · subst hii
      rcases ha : t.allocators[i]? with _ | al
      · rw [appendAlloc_invalid t i L ha] at hp
        exact Or.inl hp
      · simp only [SgUctTree.get?, appendAlloc_allocators_same t i L al ha] at hp
        by_cases hj : j < al.nodes.length
        · rw [get?_append_left _ _ _ hj] at hp
          exact Or.inl (by simp [SgUctTree.get?, ha, hp])
        · rw [get?_append_right _ _ _ (by omega)] at hp
          exact Or.inr (mem_of_getElem? _ _ _ hp)
    · simp only [SgUctTree.get?, appendAlloc_allocators_other t a L i hii] at hp
      exact Or.inl (by simp [SgUctTree.get?, hp])

/-- The structural invariant of a node only depends on allocator existence
and sizes. -/
theorem nodeOK_mono (t t' : SgUctTree) (n : SgUctNode) (h : nodeOK t n)
    (hlen : t'.NuAllocators = t.NuAllocators)
    (hsz : ∀ i, t.sizeAt i ≤ t'.sizeAt i) : nodeOK t' n := by
  intro hk
  obtain ⟨a, ha, hb⟩ := h hk
  have hi : n.firstChild.1 < t'.allocators.length := by
    have h1 := get?_lt_length _ _ _ ha
    have h2 : t'.allocators.length = t.allocators.length := hlen
    omega
  obtain ⟨a', ha'⟩ := lt_length_getElem?_isSome _ _ hi
  refine ⟨a', ha', ?_⟩
  have h1 := hsz n.firstChild.1
  rw [sizeAt_of_alloc t _ a ha, sizeAt_of_alloc t' _ a' ha'] at h1
  omega

/-- The node read (or defaulted) at a reference satisfies the invariant. -/
theorem nodeOK_getD (t : SgUctTree) (hwf : t.WF) (r : NodeRef) :
    nodeOK t ((t.get? r).getD (freshNode SG_NULLMOVE)) := by
  rcases h : t.get? r with _ | n
  · intro hk
    simp [Option.getD, freshNode] at hk
  · have := hwf r n h
    simpa using this

/-- Copying data does not change the child links. -/
theorem nodeOK_copyDataFrom (t : SgUctTree) (n : SgUctNode) (d : UctData)
    (h : nodeOK t n) : nodeOK t (n.copyDataFrom d) := h

/-- `setNode` with a node satisfying the invariant preserves tree
well-formedness. -/
theorem wf_setNode (t : SgUctTree) (r : NodeRef) (x : SgUctNode) (hwf : t.WF)
    (hx : nodeOK t x) : (t.setNode r x).WF := by
  intro p n hp
  have hlen : (t.setNode r x).NuAllocators = t.NuAllocators := setNode_NuAllocators t r x
  have hsz : ∀ i, t.sizeAt i ≤ (t.setNode r x).sizeAt i :=
    fun i => le_of_eq (setNode_sizeAt t r x i).symm
  rcases setNode_get?_cases t r x p n hp with rfl | hold
  · exact nodeOK_mono t _ n hx hlen hsz
  · exact nodeOK_mono t _ n (hwf p n hold) hlen hsz

/-- Appending childless nodes preserves tree well-formedness. -/
theorem wf_appendAlloc_zero (t : SgUctTree) (a : Nat) (L : List SgUctNode) (hwf : t.WF)
    (hL : ∀ x ∈ L, x.nuChildren = 0) : (t.appendAlloc a L).WF := by
  intro p n hp
  rcases appendAlloc_get?_cases t a L p n hp with hold | hmem
  · exact nodeOK_mono t _ n (hwf p n hold) (appendAlloc_NuAllocators t a L)
      (appendAlloc_sizeAt_le t a L)
  · intro hk
    rw [hL n hmem] at hk
    omega

/-- Publishing a child block at the current end of an existing allocator and
then appending exactly that many fresh nodes preserves well-formedness. -/
theorem wf_publish (t1 : SgUctTree) (r : NodeRef) (d : SgUctNode) (allocId k : Nat)
    (hwf : t1.WF) (a1 : SgUctAllocator) (ha1 : t1.allocators[allocId]? = some a1) :
    ((t1.setNode r
        { d with firstChild := (allocId, t1.sizeAt allocId), nuChildren := k }).appendAlloc
      allocId (List.replicate k (freshNode SG_NULLMOVE))).WF := by
  intro p n hp
  have hi1 : allocId < t1.allocators.length := get?_lt_length _ _ _ ha1
  have hi2 : allocId < (t1.setNode r
      { d with firstChild := (allocId, t1.sizeAt allocId), nuChildren := k }).allocators.length := by
    have := setNode_NuAllocators t1 r
      { d with firstChild := (allocId, t1.sizeAt allocId), nuChildren := k }
    simp only [SgUctTree.NuAllocators] at this
    omega
  obtain ⟨a2, ha2⟩ := lt_length_getElem?_isSome _ _ hi2
  have hs3 : ((t1.setNode r
      { d with firstChild := (allocId, t1.sizeAt allocId), nuChildren := k }).appendAlloc
        allocId (List.replicate k (freshNode SG_NULLMOVE))).sizeAt allocId
      = t1.sizeAt allocId + k := by
    rw [appendAlloc_sizeAt_same _ _ _ a2 ha2, setNode_sizeAt, List.length_replicate]
  have hlen3 : ((t1.setNode r
      { d with firstChild := (allocId, t1.sizeAt allocId), nuChildren := k }).appendAlloc
        allocId (List.replicate k (freshNode SG_NULLMOVE))).NuAllocators = t1.NuAllocators := by
    rw [appendAlloc_NuAllocators, setNode_NuAllocators]
  have hsz3 : ∀ i, t1.sizeAt i ≤ ((t1.setNode r
      { d with firstChild := (allocId, t1.sizeAt allocId), nuChildren := k }).appendAlloc
        allocId (List.replicate k (freshNode SG_NULLMOVE))).sizeAt i := by
    intro i
    refine le_trans ?_ (appendAlloc_sizeAt_le _ _ _ i)
    rw [setNode_sizeAt]
  rcases appendAlloc_get?_cases _ _ _ p n hp with h2 | hmem
  · rcases setNode_get?_cases _ _ _ p n h2 with rfl | hold
    · intro hk
      have hi3 : ({ d with firstChild := (allocId, t1.sizeAt allocId), nuChildren := k } : SgUctNode).firstChild.1 <
          ((t1.setNode r
            { d with firstChild := (allocId, t1.sizeAt allocId), nuChildren := k }).appendAlloc
              allocId (List.replicate k (freshNode SG_NULLMOVE))).allocators.length := by
        show allocId < _
        have : ((t1.setNode r
            { d with firstChild := (allocId, t1.sizeAt allocId), nuChildren := k }).appendAlloc
              allocId (List.replicate k (freshNode SG_NULLMOVE))).NuAllocators
            = t1.NuAllocators := hlen3
        simp only [SgUctTree.NuAllocators] at this
        omega
      obtain ⟨a3, ha3⟩ := lt_length_getElem?_isSome _ _ hi3
      have hj1 : ({ d with firstChild := (allocId, t1.sizeAt allocId), nuChildren := k } : SgUctNode).firstChild.1 = allocId := rfl
      rw [hj1] at ha3
      refine ⟨a3, ha3, ?_⟩
      show t1.sizeAt allocId + k ≤ a3.NuNodes
      have := sizeAt_of_alloc _ _ _ ha3
      omega
    · exact nodeOK_mono t1 _ n (hwf p n hold) hlen3 hsz3
  · intro hk
    have : n = freshNode SG_NULLMOVE := List.eq_of_mem_replicate hmem
    rw [this] at hk
    simp [freshNode] at hk

mutual

/-- `copySubtree` preserves the tree-wide structural invariant: every node of
the target keeps (or gets) a child block inside an existing allocator. -/
theorem copy_wf_view (env : TruncEnv) (v : UctView) (r : NodeRef) (ctx : CopyCtx)
    (hwf : ctx.target.WF) : (copySubtree env v r ctx).target.WF := by
  cases v with
  | mk data children =>
    have hok : nodeOK ctx.target
        (((ctx.target.get? r).getD (freshNode SG_NULLMOVE)).copyDataFrom data) :=
      nodeOK_copyDataFrom _ _ _ (nodeOK_getD ctx.target hwf r)
    cases children with
    | nil => exact wf_setNode _ _ _ hwf hok
    | cons c cs =>
      simp only [copySubtree]
      split
      · have hwt1 : (ctx.target.setNode r
            (((ctx.target.get? r).getD (freshNode SG_NULLMOVE)).copyDataFrom data)).WF :=
          wf_setNode _ _ _ hwf hok
        refine wf_setNode _ _ _ hwt1 ?_
        have h1 : nodeOK (ctx.target.setNode r
            (((ctx.target.get? r).getD (freshNode SG_NULLMOVE)).copyDataFrom data))
            (((ctx.target.get? r).getD (freshNode SG_NULLMOVE)).copyDataFrom data) :=
          nodeOK_mono ctx.target _ _ hok (setNode_NuAllocators _ _ _)
            (fun i => le_of_eq (setNode_sizeAt _ _ _ i).symm)
        exact h1
      · rename_i htr
        have hwt1 : (ctx.target.setNode r
            (((ctx.target.get? r).getD (freshNode SG_NULLMOVE)).copyDataFrom data)).WF :=
          wf_setNode _ _ _ hwf hok
        have hcap : copyCapacity (ctx.target.setNode r
            (((ctx.target.get? r).getD (freshNode SG_NULLMOVE)).copyDataFrom data))
            ctx.allocId (UctForest.cons c cs).length = true := by
          rcases hc : copyCapacity (ctx.target.setNode r
              (((ctx.target.get? r).getD (freshNode SG_NULLMOVE)).copyDataFrom data))
              ctx.allocId (UctForest.cons c cs).length
          · exact absurd (by simp [hc]) htr
          · rfl
        have ha1 : ∃ a1, (ctx.target.setNode r
            (((ctx.target.get? r).getD (freshNode SG_NULLMOVE)).copyDataFrom data)).allocators[
              ctx.allocId]? = some a1 := by
          revert hcap
          rw [copyCapacity]
          rcases ha : (ctx.target.setNode r
              (((ctx.target.get? r).getD (freshNode SG_NULLMOVE)).copyDataFrom data)).allocators[
                ctx.allocId]? with _ | a1
          · intro hc
            cases hc
          · intro _
            exact ⟨a1, rfl⟩
        obtain ⟨a1, ha1⟩ := ha1
        exact copy_wf_forest env (UctForest.cons c cs) ctx.allocId _ 0 _
          (wf_publish _ r _ ctx.allocId (UctForest.cons c cs).length hwt1 a1 ha1)
termination_by sizeOf v

/-- `copyForest` preserves the tree-wide structural invariant. -/
theorem copy_wf_forest (env : TruncEnv) (vs : UctForest) (blockAlloc first i0 : Nat)
    (ctx : CopyCtx) (hwf : ctx.target.WF) :
    (copyForest env vs blockAlloc first i0 ctx).target.WF := by
  cases vs with
  | nil => exact hwf
  | cons v rest =>
    simp only [copyForest]
    exact copy_wf_forest env rest blockAlloc first (i0 + 1) _
      (copy_wf_view env v (NodeRef.alloc blockAlloc (first + i0))
        { ctx with allocId := if ctx.target.NuAllocators ≤ ctx.allocId + 1 then 0
            else ctx.allocId + 1 } hwf)
termination_by sizeOf vs

end

/-- A view has one node plus its proper descendants. -/
theorem UctView.size_eq (v : UctView) : v.size = 1 + v.descCount := by
  cases v with
  | mk data f => rfl

/-- A forest has one node per tree plus the proper descendants. -/
theorem UctForest.sizeF_eq (vs : UctForest) : vs.sizeF = vs.length + vs.descF := by
  cases vs with
  | nil => rfl
  | cons v rest =>
    simp only [UctForest.sizeF, UctForest.length, UctForest.descF]
    rw [UctView.size_eq v, UctForest.sizeF_eq rest]
    omega
termination_by sizeOf vs

/-- Indexing a replicated list below its length. -/
theorem getElem?_replicate_of_lt {α : Type} (n j : Nat) (a : α) (h : j < n) :
    (List.replicate n a)[j]? = some a := by
  induction n generalizing j with
  | zero => omega
  | succ m ih =>
    cases j with
    | zero => simp [List.replicate_succ]
    | succ k =>
      simp only [List.replicate_succ, List.getElem?_cons_succ]
      exact ih k (by omega)

/-- Copying data installs exactly the given payload. -/
theorem dataOf_copyDataFrom (n : SgUctNode) (d : UctData) :
    (n.copyDataFrom d).dataOf = d := rfl

/-- Copying data keeps the child count. -/
theorem nuChildren_copyDataFrom (n : SgUctNode) (d : UctData) :
    (n.copyDataFrom d).nuChildren = n.nuChildren := rfl

mutual

/-- When a view is realized, every inspected reference dereferences. -/
theorem realize_valid_view (t : SgUctTree) (r : NodeRef) (v : UctView)
    (h : realizesView t r v = true) :
    ∀ p ∈ posOfView t r v, ∃ np, t.get? p = some np := by
  cases v with
  | mk data f =>
    rcases hr : t.get? r with _ | n
    · simp only [realizesView, hr] at h
      exact (Bool.false_ne_true h).elim
    · intro p hp
      simp only [posOfView, hr] at hp
      rcases List.mem_cons.mp hp with rfl | hp2
      · exact ⟨n, hr⟩
      · by_cases hf : f.length = 0
        · rw [if_pos hf] at hp2
          simp at hp2
        · rw [if_neg hf] at hp2
          simp only [realizesView, hr, if_neg hf, Bool.and_eq_true] at h
          exact realize_valid_forest t n.firstChild.1 n.firstChild.2 f h.2 p hp2
termination_by sizeOf v

/-- When a forest is realized, every inspected reference dereferences. -/
theorem realize_valid_forest (t : SgUctTree) (i j : Nat) (vs : UctForest)
    (h : realizesForest t i j vs = true) :
    ∀ p ∈ posOfForest t i j vs, ∃ np, t.get? p = some np := by
  cases vs with
  | nil =>
    intro p hp
    simp [posOfForest] at hp
  | cons v rest =>
    simp only [realizesForest, Bool.and_eq_true] at h
    intro p hp
    simp only [posOfForest] at hp
    rcases List.mem_append.mp hp with hp1 | hp2
    · exact realize_valid_view t (NodeRef.alloc i j) v h.1 p hp1
    · exact realize_valid_forest t i (j + 1) rest h.2 p hp2
termination_by sizeOf vs

end

mutual

/-- Realization and the inspected references depend on the tree only through
the values at the inspected references. -/
theorem realizes_mono_view (t t' : SgUctTree) (r : NodeRef) (v : UctView)
    (hag : ∀ p ∈ posOfView t r v, t'.get? p = t.get? p)
    (h : realizesView t r v = true) :
    realizesView t' r v = true ∧ posOfView t' r v = posOfView t r v := by
  cases v with
  | mk data f =>
    rcases hr : t.get? r with _ | n
    · simp only [realizesView, hr] at h
      exact (Bool.false_ne_true h).elim
    · have hmr : r ∈ posOfView t r (UctView.mk data f) := by
        simp [posOfView, hr]
      have hr' : t'.get? r = some n := (hag r hmr).trans hr
      simp only [realizesView, hr] at h
      by_cases hf : f.length = 0
      · constructor
        · simp only [realizesView, hr', if_pos hf]
          rw [if_pos hf] at h
          exact h
        · simp only [posOfView, hr, hr', if_pos hf]
      · rw [if_neg hf] at h
        simp only [Bool.and_eq_true] at h
        have hsub : ∀ p ∈ posOfForest t n.firstChild.1 n.firstChild.2 f,
            t'.get? p = t.get? p := by
          intro p hp
          refine hag p ?_
          simp only [posOfView, hr, if_neg hf]
          exact List.mem_cons_of_mem _ hp
        have hrec := realizes_mono_forest t t' n.firstChild.1 n.firstChild.2 f hsub h.2
        constructor
        · simp only [realizesView, hr', if_neg hf, Bool.and_eq_true]
          exact ⟨h.1, hrec.1⟩
        · simp only [posOfView, hr, hr', if_neg hf, hrec.2]
termination_by sizeOf v

/-- Realization of a forest and its inspected references depend on the tree
only through the values at the inspected references. -/
theorem realizes_mono_forest (t t' : SgUctTree) (i j : Nat) (vs : UctForest)
    (hag : ∀ p ∈ posOfForest t i j vs, t'.get? p = t.get? p)
    (h : realizesForest t i j vs = true) :
    realizesForest t' i j vs = true ∧ posOfForest t' i j vs = posOfForest t i j vs := by
  cases vs with
  | nil => exact ⟨rfl, rfl⟩
  | cons v rest =>
    simp only [realizesForest, Bool.and_eq_true] at h
    have hag1 : ∀ p ∈ posOfView t (NodeRef.alloc i j) v, t'.get? p = t.get? p := by
      intro p hp
      exact hag p (by
        simp only [posOfForest]
        exact List.mem_append_left _ hp)
    have hag2 : ∀ p ∈ posOfForest t i (j + 1) rest, t'.get? p = t.get? p := by
      intro p hp
      exact hag p (by
        simp only [posOfForest]
        exact List.mem_append_right _ hp)
    have h1 := realizes_mono_view t t' (NodeRef.alloc i j) v hag1 h.1
    have h2 := realizes_mono_forest t t' i (j + 1) rest hag2 h.2
    constructor
    · simp only [realizesForest, Bool.and_eq_true]
      exact ⟨h1.1, h2.1⟩
    · simp only [posOfForest, h1.2, h2.2]
termination_by sizeOf vs

end

mutual

/-- The main copy theorem for one subtree: when the whole copy ran without
truncation (warn flag still raised), `copySubtree` into a childless node adds
exactly the view's descendant count to the target, the target then realizes
the view at `r`, and every reference the realization inspects is either `r`
itself or a slot freshly appended during this copy. -/
theorem copy_main_view (env : TruncEnv) (v : UctView) (r : NodeRef) (ctx : CopyCtx)
    (n0 : SgUctNode) (hr : ctx.target.get? r = some n0) (hz : n0.nuChildren = 0)
    (hwarn : (copySubtree env v r ctx).warn = true) :
    (copySubtree env v r ctx).target.allocSizes = ctx.target.allocSizes + v.descCount ∧
    realizesView (copySubtree env v r ctx).target r v = true ∧
    ∀ p ∈ posOfView (copySubtree env v r ctx).target r v,
      p = r ∨ ∃ a j, p = NodeRef.alloc a j ∧ ctx.target.sizeAt a ≤ j := by
  cases v with
  | mk data children =>
    cases children with
    | nil =>
      simp only [copySubtree] at hwarn ⊢
      rw [hr]
      simp only [Option.getD_some]
      have hg : (ctx.target.setNode r (n0.copyDataFrom data)).get? r
          = some (n0.copyDataFrom data) := setNode_get?_same ctx.target r _ n0 hr
      refine ⟨?_, ?_, ?_⟩
      · show (ctx.target.setNode r (n0.copyDataFrom data)).allocSizes
            = ctx.target.allocSizes + (UctView.mk data UctForest.nil).descCount
        rw [setNode_allocSizes]
        simp [UctView.descCount, UctForest.sizeF]
      · show realizesView (ctx.target.setNode r (n0.copyDataFrom data)) r
            (UctView.mk data UctForest.nil) = true
        simp only [realizesView, hg]
        rw [dataOf_copyDataFrom, nuChildren_copyDataFrom, hz]
        simp [UctForest.length]
      · show ∀ p ∈ posOfView (ctx.target.setNode r (n0.copyDataFrom data)) r
            (UctView.mk data UctForest.nil),
            p = r ∨ ∃ a j, p = NodeRef.alloc a j ∧ ctx.target.sizeAt a ≤ j
        intro p hp
        simp only [posOfView, hg] at hp
        simp [UctForest.length] at hp
        exact Or.inl hp
    | cons c cs =>
      simp only [copySubtree] at hwarn ⊢
      rw [hr] at hwarn ⊢
      simp only [Option.getD_some] at hwarn ⊢
      revert hwarn
      split
      · intro hwarn
        exact absurd hwarn (by simp)
      · rename_i htr
        intro hwarn
        have hcap : copyCapacity (ctx.target.setNode r (n0.copyDataFrom data)) ctx.allocId (UctForest.cons c cs).length = true := by
          rcases hc : copyCapacity (ctx.target.setNode r (n0.copyDataFrom data)) ctx.allocId (UctForest.cons c cs).length
          · exact absurd (by simp [hc]) htr
          · rfl
        have ha1x : ∃ a1, (ctx.target.setNode r (n0.copyDataFrom data)).allocators[ctx.allocId]? = some a1 := by
          revert hcap
          rw [copyCapacity]
          rcases ha : (ctx.target.setNode r (n0.copyDataFrom data)).allocators[ctx.allocId]? with _ | a1
          · intro hc
            cases hc
          · intro _
            exact ⟨a1, rfl⟩
        obtain ⟨a1, ha1⟩ := ha1x
        have hi2 : ctx.allocId < ((ctx.target.setNode r (n0.copyDataFrom data)).setNode r { move := (n0.copyDataFrom data).move, posCount := (n0.copyDataFrom data).posCount, moveCount := (n0.copyDataFrom data).moveCount, mean := (n0.copyDataFrom data).mean, raveCount := (n0.copyDataFrom data).raveCount, raveMean := (n0.copyDataFrom data).raveMean, firstChild := (ctx.allocId, (ctx.target.setNode r (n0.copyDataFrom data)).sizeAt ctx.allocId), nuChildren := (UctForest.cons c cs).length }).allocators.length := by
          have h1 := setNode_NuAllocators (ctx.target.setNode r (n0.copyDataFrom data)) r { move := (n0.copyDataFrom data).move, posCount := (n0.copyDataFrom data).posCount, moveCount := (n0.copyDataFrom data).moveCount, mean := (n0.copyDataFrom data).mean, raveCount := (n0.copyDataFrom data).raveCount, raveMean := (n0.copyDataFrom data).raveMean, firstChild := (ctx.allocId, (ctx.target.setNode r (n0.copyDataFrom data)).sizeAt ctx.allocId), nuChildren := (UctForest.cons c cs).length }
          have h2 := get?_lt_length _ _ _ ha1
          simp only [SgUctTree.NuAllocators] at h1
          omega
        obtain ⟨a2, ha2⟩ := lt_length_getElem?_isSome _ _ hi2
        have ha2n : a2.NuNodes = (ctx.target.setNode r (n0.copyDataFrom data)).sizeAt ctx.allocId := by
          have h1 := sizeAt_of_alloc ((ctx.target.setNode r (n0.copyDataFrom data)).setNode r { move := (n0.copyDataFrom data).move, posCount := (n0.copyDataFrom data).posCount, moveCount := (n0.copyDataFrom data).moveCount, mean := (n0.copyDataFrom data).mean, raveCount := (n0.copyDataFrom data).raveCount, raveMean := (n0.copyDataFrom data).raveMean, firstChild := (ctx.allocId, (ctx.target.setNode r (n0.copyDataFrom data)).sizeAt ctx.allocId), nuChildren := (UctForest.cons c cs).length }) ctx.allocId a2 ha2
          rw [setNode_sizeAt] at h1
          omega
        have ht3size : (((ctx.target.setNode r (n0.copyDataFrom data)).setNode r { move := (n0.copyDataFrom data).move, posCount := (n0.copyDataFrom data).posCount, moveCount := (n0.copyDataFrom data).moveCount, mean := (n0.copyDataFrom data).mean, raveCount := (n0.copyDataFrom data).raveCount, raveMean := (n0.copyDataFrom data).raveMean, firstChild := (ctx.allocId, (ctx.target.setNode r (n0.copyDataFrom data)).sizeAt ctx.allocId), nuChildren := (UctForest.cons c cs).length }).appendAlloc ctx.allocId (List.replicate (UctForest.cons c cs).length (freshNode SG_NULLMOVE))).sizeAt ctx.allocId
            = (ctx.target.setNode r (n0.copyDataFrom data)).sizeAt ctx.allocId + (UctForest.cons c cs).length := by
          rw [appendAlloc_sizeAt_same ((ctx.target.setNode r (n0.copyDataFrom data)).setNode r { move := (n0.copyDataFrom data).move, posCount := (n0.copyDataFrom data).posCount, moveCount := (n0.copyDataFrom data).moveCount, mean := (n0.copyDataFrom data).mean, raveCount := (n0.copyDataFrom data).raveCount, raveMean := (n0.copyDataFrom data).raveMean, firstChild := (ctx.allocId, (ctx.target.setNode r (n0.copyDataFrom data)).sizeAt ctx.allocId), nuChildren := (UctForest.cons c cs).length }) ctx.allocId (List.replicate (UctForest.cons c cs).length (freshNode SG_NULLMOVE)) a2 ha2, setNode_sizeAt,
            List.length_replicate]
        have hK0 : ¬((UctForest.cons c cs).length = 0) := by
          simp only [UctForest.length]
          omega
        have hslots3 : ∀ e, 0 ≤ e → e < 0 + (UctForest.cons c cs).length →
            ∃ m0, (((ctx.target.setNode r (n0.copyDataFrom data)).setNode r { move := (n0.copyDataFrom data).move, posCount := (n0.copyDataFrom data).posCount, moveCount := (n0.copyDataFrom data).moveCount, mean := (n0.copyDataFrom data).mean, raveCount := (n0.copyDataFrom data).raveCount, raveMean := (n0.copyDataFrom data).raveMean, firstChild := (ctx.allocId, (ctx.target.setNode r (n0.copyDataFrom data)).sizeAt ctx.allocId), nuChildren := (UctForest.cons c cs).length }).appendAlloc ctx.allocId (List.replicate (UctForest.cons c cs).length (freshNode SG_NULLMOVE))).get? (NodeRef.alloc ctx.allocId ((ctx.target.setNode r (n0.copyDataFrom data)).sizeAt ctx.allocId + e)) = some m0 ∧
              m0.nuChildren = 0 := by
          intro e he1 he2
          refine ⟨freshNode SG_NULLMOVE, ?_, rfl⟩
          have h1 := appendAlloc_get?_new ((ctx.target.setNode r (n0.copyDataFrom data)).setNode r { move := (n0.copyDataFrom data).move, posCount := (n0.copyDataFrom data).posCount, moveCount := (n0.copyDataFrom data).moveCount, mean := (n0.copyDataFrom data).mean, raveCount := (n0.copyDataFrom data).raveCount, raveMean := (n0.copyDataFrom data).raveMean, firstChild := (ctx.allocId, (ctx.target.setNode r (n0.copyDataFrom data)).sizeAt ctx.allocId), nuChildren := (UctForest.cons c cs).length }) ctx.allocId (List.replicate (UctForest.cons c cs).length (freshNode SG_NULLMOVE)) a2 e ha2
          rw [getElem?_replicate_of_lt _ _ _ (by omega)] at h1
          rw [ha2n] at h1
          exact h1
        have hblock3 : (ctx.target.setNode r (n0.copyDataFrom data)).sizeAt ctx.allocId + 0 + (UctForest.cons c cs).length
            ≤ (((ctx.target.setNode r (n0.copyDataFrom data)).setNode r { move := (n0.copyDataFrom data).move, posCount := (n0.copyDataFrom data).posCount, moveCount := (n0.copyDataFrom data).moveCount, mean := (n0.copyDataFrom data).mean, raveCount := (n0.copyDataFrom data).raveCount, raveMean := (n0.copyDataFrom data).raveMean, firstChild := (ctx.allocId, (ctx.target.setNode r (n0.copyDataFrom data)).sizeAt ctx.allocId), nuChildren := (UctForest.cons c cs).length }).appendAlloc ctx.allocId (List.replicate (UctForest.cons c cs).length (freshNode SG_NULLMOVE))).sizeAt ctx.allocId := by
          omega
        have hres := copy_main_forest env (UctForest.cons c cs) ctx.allocId
          ((ctx.target.setNode r (n0.copyDataFrom data)).sizeAt ctx.allocId) 0 { target := (((ctx.target.setNode r (n0.copyDataFrom data)).setNode r { move := (n0.copyDataFrom data).move, posCount := (n0.copyDataFrom data).posCount, moveCount := (n0.copyDataFrom data).moveCount, mean := (n0.copyDataFrom data).mean, raveCount := (n0.copyDataFrom data).raveCount, raveMean := (n0.copyDataFrom data).raveMean, firstChild := (ctx.allocId, (ctx.target.setNode r (n0.copyDataFrom data)).sizeAt ctx.allocId), nuChildren := (UctForest.cons c cs).length }).appendAlloc ctx.allocId (List.replicate (UctForest.cons c cs).length (freshNode SG_NULLMOVE))), allocId := ctx.allocId, warn := ctx.warn, msgs := (ctx.msgs ++ truncMsgs (copyCapacity (ctx.target.setNode r (n0.copyDataFrom data)) ctx.allocId (UctForest.cons c cs).length) (env.timeOutAt ctx.step) (env.abortAt ctx.step) ctx.warn), step := ctx.step + 1 } hslots3 hblock3 hwarn
        have hpr1 : (ctx.target.setNode r (n0.copyDataFrom data)).get? r = some (n0.copyDataFrom data) :=
          setNode_get?_same ctx.target r (n0.copyDataFrom data) n0 hr
        have hpr2 : ((ctx.target.setNode r (n0.copyDataFrom data)).setNode r { move := (n0.copyDataFrom data).move, posCount := (n0.copyDataFrom data).posCount, moveCount := (n0.copyDataFrom data).moveCount, mean := (n0.copyDataFrom data).mean, raveCount := (n0.copyDataFrom data).raveCount, raveMean := (n0.copyDataFrom data).raveMean, firstChild := (ctx.allocId, (ctx.target.setNode r (n0.copyDataFrom data)).sizeAt ctx.allocId), nuChildren := (UctForest.cons c cs).length }).get? r = some { move := (n0.copyDataFrom data).move, posCount := (n0.copyDataFrom data).posCount, moveCount := (n0.copyDataFrom data).moveCount, mean := (n0.copyDataFrom data).mean, raveCount := (n0.copyDataFrom data).raveCount, raveMean := (n0.copyDataFrom data).raveMean, firstChild := (ctx.allocId, (ctx.target.setNode r (n0.copyDataFrom data)).sizeAt ctx.allocId), nuChildren := (UctForest.cons c cs).length } :=
          setNode_get?_same (ctx.target.setNode r (n0.copyDataFrom data)) r { move := (n0.copyDataFrom data).move, posCount := (n0.copyDataFrom data).posCount, moveCount := (n0.copyDataFrom data).moveCount, mean := (n0.copyDataFrom data).mean, raveCount := (n0.copyDataFrom data).raveCount, raveMean := (n0.copyDataFrom data).raveMean, firstChild := (ctx.allocId, (ctx.target.setNode r (n0.copyDataFrom data)).sizeAt ctx.allocId), nuChildren := (UctForest.cons c cs).length } (n0.copyDataFrom data) hpr1
        have hpr3 : (((ctx.target.setNode r (n0.copyDataFrom data)).setNode r { move := (n0.copyDataFrom data).move, posCount := (n0.copyDataFrom data).posCount, moveCount := (n0.copyDataFrom data).moveCount, mean := (n0.copyDataFrom data).mean, raveCount := (n0.copyDataFrom data).raveCount, raveMean := (n0.copyDataFrom data).raveMean, firstChild := (ctx.allocId, (ctx.target.setNode r (n0.copyDataFrom data)).sizeAt ctx.allocId), nuChildren := (UctForest.cons c cs).length }).appendAlloc ctx.allocId (List.replicate (UctForest.cons c cs).length (freshNode SG_NULLMOVE))).get? r = some { move := (n0.copyDataFrom data).move, posCount := (n0.copyDataFrom data).posCount, moveCount := (n0.copyDataFrom data).moveCount, mean := (n0.copyDataFrom data).mean, raveCount := (n0.copyDataFrom data).raveCount, raveMean := (n0.copyDataFrom data).raveMean, firstChild := (ctx.allocId, (ctx.target.setNode r (n0.copyDataFrom data)).sizeAt ctx.allocId), nuChildren := (UctForest.cons c cs).length } :=
          appendAlloc_get?_valid ((ctx.target.setNode r (n0.copyDataFrom data)).setNode r { move := (n0.copyDataFrom data).move, posCount := (n0.copyDataFrom data).posCount, moveCount := (n0.copyDataFrom data).moveCount, mean := (n0.copyDataFrom data).mean, raveCount := (n0.copyDataFrom data).raveCount, raveMean := (n0.copyDataFrom data).raveMean, firstChild := (ctx.allocId, (ctx.target.setNode r (n0.copyDataFrom data)).sizeAt ctx.allocId), nuChildren := (UctForest.cons c cs).length }) ctx.allocId (List.replicate (UctForest.cons c cs).length (freshNode SG_NULLMOVE)) r { move := (n0.copyDataFrom data).move, posCount := (n0.copyDataFrom data).posCount, moveCount := (n0.copyDataFrom data).moveCount, mean := (n0.copyDataFrom data).mean, raveCount := (n0.copyDataFrom data).raveCount, raveMean := (n0.copyDataFrom data).raveMean, firstChild := (ctx.allocId, (ctx.target.setNode r (n0.copyDataFrom data)).sizeAt ctx.allocId), nuChildren := (UctForest.cons c cs).length } hpr2
        have hrne : ∀ e, 0 ≤ e → e < 0 + (UctForest.cons c cs).length →
            r ≠ NodeRef.alloc ctx.allocId ((ctx.target.setNode r (n0.copyDataFrom data)).sizeAt ctx.allocId + e) := by
          intro e he1 he2 hc
          rw [hc] at hr
          have hlt := valid_lt_sizeAt ctx.target ctx.allocId
            ((ctx.target.setNode r (n0.copyDataFrom data)).sizeAt ctx.allocId + e) n0 hr
          have h4 := setNode_sizeAt ctx.target r (n0.copyDataFrom data) ctx.allocId
          omega
        have hparent : (copyForest env (UctForest.cons c cs) ctx.allocId ((ctx.target.setNode r (n0.copyDataFrom data)).sizeAt ctx.allocId) 0 { target := (((ctx.target.setNode r (n0.copyDataFrom data)).setNode r { move := (n0.copyDataFrom data).move, posCount := (n0.copyDataFrom data).posCount, moveCount := (n0.copyDataFrom data).moveCount, mean := (n0.copyDataFrom data).mean, raveCount := (n0.copyDataFrom data).raveCount, raveMean := (n0.copyDataFrom data).raveMean, firstChild := (ctx.allocId, (ctx.target.setNode r (n0.copyDataFrom data)).sizeAt ctx.allocId), nuChildren := (UctForest.cons c cs).length }).appendAlloc ctx.allocId (List.replicate (UctForest.cons c cs).length (freshNode SG_NULLMOVE))), allocId := ctx.allocId, warn := ctx.warn, msgs := (ctx.msgs ++ truncMsgs (copyCapacity (ctx.target.setNode r (n0.copyDataFrom data)) ctx.allocId (UctForest.cons c cs).length) (env.timeOutAt ctx.step) (env.abortAt ctx.step) ctx.warn), step := ctx.step + 1 }).target.get? r = some { move := (n0.copyDataFrom data).move, posCount := (n0.copyDataFrom data).posCount, moveCount := (n0.copyDataFrom data).moveCount, mean := (n0.copyDataFrom data).mean, raveCount := (n0.copyDataFrom data).raveCount, raveMean := (n0.copyDataFrom data).raveMean, firstChild := (ctx.allocId, (ctx.target.setNode r (n0.copyDataFrom data)).sizeAt ctx.allocId), nuChildren := (UctForest.cons c cs).length } :=
          copy_frame_forest env (UctForest.cons c cs) ctx.allocId
            ((ctx.target.setNode r (n0.copyDataFrom data)).sizeAt ctx.allocId) 0 { target := (((ctx.target.setNode r (n0.copyDataFrom data)).setNode r { move := (n0.copyDataFrom data).move, posCount := (n0.copyDataFrom data).posCount, moveCount := (n0.copyDataFrom data).moveCount, mean := (n0.copyDataFrom data).mean, raveCount := (n0.copyDataFrom data).raveCount, raveMean := (n0.copyDataFrom data).raveMean, firstChild := (ctx.allocId, (ctx.target.setNode r (n0.copyDataFrom data)).sizeAt ctx.allocId), nuChildren := (UctForest.cons c cs).length }).appendAlloc ctx.allocId (List.replicate (UctForest.cons c cs).length (freshNode SG_NULLMOVE))), allocId := ctx.allocId, warn := ctx.warn, msgs := (ctx.msgs ++ truncMsgs (copyCapacity (ctx.target.setNode r (n0.copyDataFrom data)) ctx.allocId (UctForest.cons c cs).length) (env.timeOutAt ctx.step) (env.abortAt ctx.step) ctx.warn), step := ctx.step + 1 } r { move := (n0.copyDataFrom data).move, posCount := (n0.copyDataFrom data).posCount, moveCount := (n0.copyDataFrom data).moveCount, mean := (n0.copyDataFrom data).mean, raveCount := (n0.copyDataFrom data).raveCount, raveMean := (n0.copyDataFrom data).raveMean, firstChild := (ctx.allocId, (ctx.target.setNode r (n0.copyDataFrom data)).sizeAt ctx.allocId), nuChildren := (UctForest.cons c cs).length } hpr3 hrne
        refine ⟨?_, ?_, ?_⟩
        · have h1 := hres.1
          have h2 : ({ target := (((ctx.target.setNode r (n0.copyDataFrom data)).setNode r { move := (n0.copyDataFrom data).move, posCount := (n0.copyDataFrom data).posCount, moveCount := (n0.copyDataFrom data).moveCount, mean := (n0.copyDataFrom data).mean, raveCount := (n0.copyDataFrom data).raveCount, raveMean := (n0.copyDataFrom data).raveMean, firstChild := (ctx.allocId, (ctx.target.setNode r (n0.copyDataFrom data)).sizeAt ctx.allocId), nuChildren := (UctForest.cons c cs).length }).appendAlloc ctx.allocId (List.replicate (UctForest.cons c cs).length (freshNode SG_NULLMOVE))), allocId := ctx.allocId, warn := ctx.warn, msgs := (ctx.msgs ++ truncMsgs (copyCapacity (ctx.target.setNode r (n0.copyDataFrom data)) ctx.allocId (UctForest.cons c cs).length) (env.timeOutAt ctx.step) (env.abortAt ctx.step) ctx.warn), step := ctx.step + 1 } : CopyCtx).target.allocSizes = (((ctx.target.setNode r (n0.copyDataFrom data)).setNode r { move := (n0.copyDataFrom data).move, posCount := (n0.copyDataFrom data).posCount, moveCount := (n0.copyDataFrom data).moveCount, mean := (n0.copyDataFrom data).mean, raveCount := (n0.copyDataFrom data).raveCount, raveMean := (n0.copyDataFrom data).raveMean, firstChild := (ctx.allocId, (ctx.target.setNode r (n0.copyDataFrom data)).sizeAt ctx.allocId), nuChildren := (UctForest.cons c cs).length }).appendAlloc ctx.allocId (List.replicate (UctForest.cons c cs).length (freshNode SG_NULLMOVE))).allocSizes := rfl
          have hsz3 : (((ctx.target.setNode r (n0.copyDataFrom data)).setNode r { move := (n0.copyDataFrom data).move, posCount := (n0.copyDataFrom data).posCount, moveCount := (n0.copyDataFrom data).moveCount, mean := (n0.copyDataFrom data).mean, raveCount := (n0.copyDataFrom data).raveCount, raveMean := (n0.copyDataFrom data).raveMean, firstChild := (ctx.allocId, (ctx.target.setNode r (n0.copyDataFrom data)).sizeAt ctx.allocId), nuChildren := (UctForest.cons c cs).length }).appendAlloc ctx.allocId (List.replicate (UctForest.cons c cs).length (freshNode SG_NULLMOVE))).allocSizes
              = ctx.target.allocSizes + (UctForest.cons c cs).length := by
            rw [appendAlloc_allocSizes ((ctx.target.setNode r (n0.copyDataFrom data)).setNode r { move := (n0.copyDataFrom data).move, posCount := (n0.copyDataFrom data).posCount, moveCount := (n0.copyDataFrom data).moveCount, mean := (n0.copyDataFrom data).mean, raveCount := (n0.copyDataFrom data).raveCount, raveMean := (n0.copyDataFrom data).raveMean, firstChild := (ctx.allocId, (ctx.target.setNode r (n0.copyDataFrom data)).sizeAt ctx.allocId), nuChildren := (UctForest.cons c cs).length }) ctx.allocId (List.replicate (UctForest.cons c cs).length (freshNode SG_NULLMOVE)) a2 ha2, setNode_allocSizes,
              setNode_allocSizes, List.length_replicate]
          have hdesc : (UctView.mk data (UctForest.cons c cs)).descCount
              = (UctForest.cons c cs).length + (UctForest.cons c cs).descF := by
            simp only [UctView.descCount]
            exact UctForest.sizeF_eq _
          omega
        · simp only [realizesView, hparent, if_neg hK0]
          simp only [Bool.and_eq_true]
          refine ⟨⟨?_, ?_⟩, ?_⟩
          · first
            | (rw [decide_eq_true_eq]; rfl)
            | (rw [decide_eq_true_eq]; trivial)
            | rfl
            | trivial
          · first
            | (rw [decide_eq_true_eq]; rfl)
            | (rw [decide_eq_true_eq]; trivial)
            | rfl
            | trivial
          · exact hres.2.1
        · intro p hp
          simp only [posOfView, hparent] at hp
          rw [if_neg hK0] at hp
          rcases List.mem_cons.mp hp with rfl | hp2
          · exact Or.inl rfl
          · have hp3 : p ∈ posOfForest (copyForest env (UctForest.cons c cs) ctx.allocId ((ctx.target.setNode r (n0.copyDataFrom data)).sizeAt ctx.allocId) 0 { target := (((ctx.target.setNode r (n0.copyDataFrom data)).setNode r { move := (n0.copyDataFrom data).move, posCount := (n0.copyDataFrom data).posCount, moveCount := (n0.copyDataFrom data).moveCount, mean := (n0.copyDataFrom data).mean, raveCount := (n0.copyDataFrom data).raveCount, raveMean := (n0.copyDataFrom data).raveMean, firstChild := (ctx.allocId, (ctx.target.setNode r (n0.copyDataFrom data)).sizeAt ctx.allocId), nuChildren := (UctForest.cons c cs).length }).appendAlloc ctx.allocId (List.replicate (UctForest.cons c cs).length (freshNode SG_NULLMOVE))), allocId := ctx.allocId, warn := ctx.warn, msgs := (ctx.msgs ++ truncMsgs (copyCapacity (ctx.target.setNode r (n0.copyDataFrom data)) ctx.allocId (UctForest.cons c cs).length) (env.timeOutAt ctx.step) (env.abortAt ctx.step) ctx.warn), step := ctx.step + 1 }).target ctx.allocId
                ((ctx.target.setNode r (n0.copyDataFrom data)).sizeAt ctx.allocId + 0) (UctForest.cons c cs) := hp2
            rcases hres.2.2 p hp3 with ⟨e, he1, he2, hpe⟩ | ⟨a, j, hpj, hsj⟩
            · right
              refine ⟨ctx.allocId, (ctx.target.setNode r (n0.copyDataFrom data)).sizeAt ctx.allocId + e, hpe, ?_⟩
              have h4 := setNode_sizeAt ctx.target r (n0.copyDataFrom data) ctx.allocId
              omega
            · right
              refine ⟨a, j, hpj, ?_⟩
              have h1 : ({ target := (((ctx.target.setNode r (n0.copyDataFrom data)).setNode r { move := (n0.copyDataFrom data).move, posCount := (n0.copyDataFrom data).posCount, moveCount := (n0.copyDataFrom data).moveCount, mean := (n0.copyDataFrom data).mean, raveCount := (n0.copyDataFrom data).raveCount, raveMean := (n0.copyDataFrom data).raveMean, firstChild := (ctx.allocId, (ctx.target.setNode r (n0.copyDataFrom data)).sizeAt ctx.allocId), nuChildren := (UctForest.cons c cs).length }).appendAlloc ctx.allocId (List.replicate (UctForest.cons c cs).length (freshNode SG_NULLMOVE))), allocId := ctx.allocId, warn := ctx.warn, msgs := (ctx.msgs ++ truncMsgs (copyCapacity (ctx.target.setNode r (n0.copyDataFrom data)) ctx.allocId (UctForest.cons c cs).length) (env.timeOutAt ctx.step) (env.abortAt ctx.step) ctx.warn), step := ctx.step + 1 } : CopyCtx).target.sizeAt a = (((ctx.target.setNode r (n0.copyDataFrom data)).setNode r { move := (n0.copyDataFrom data).move, posCount := (n0.copyDataFrom data).posCount, moveCount := (n0.copyDataFrom data).moveCount, mean := (n0.copyDataFrom data).mean, raveCount := (n0.copyDataFrom data).raveCount, raveMean := (n0.copyDataFrom data).raveMean, firstChild := (ctx.allocId, (ctx.target.setNode r (n0.copyDataFrom data)).sizeAt ctx.allocId), nuChildren := (UctForest.cons c cs).length }).appendAlloc ctx.allocId (List.replicate (UctForest.cons c cs).length (freshNode SG_NULLMOVE))).sizeAt a := rfl
              have h2 := appendAlloc_sizeAt_le ((ctx.target.setNode r (n0.copyDataFrom data)).setNode r { move := (n0.copyDataFrom data).move, posCount := (n0.copyDataFrom data).posCount, moveCount := (n0.copyDataFrom data).moveCount, mean := (n0.copyDataFrom data).mean, raveCount := (n0.copyDataFrom data).raveCount, raveMean := (n0.copyDataFrom data).raveMean, firstChild := (ctx.allocId, (ctx.target.setNode r (n0.copyDataFrom data)).sizeAt ctx.allocId), nuChildren := (UctForest.cons c cs).length }) ctx.allocId (List.replicate (UctForest.cons c cs).length (freshNode SG_NULLMOVE)) a
              have h3 := setNode_sizeAt (ctx.target.setNode r (n0.copyDataFrom data)) r { move := (n0.copyDataFrom data).move, posCount := (n0.copyDataFrom data).posCount, moveCount := (n0.copyDataFrom data).moveCount, mean := (n0.copyDataFrom data).mean, raveCount := (n0.copyDataFrom data).raveCount, raveMean := (n0.copyDataFrom data).raveMean, firstChild := (ctx.allocId, (ctx.target.setNode r (n0.copyDataFrom data)).sizeAt ctx.allocId), nuChildren := (UctForest.cons c cs).length } a
              have h4 := setNode_sizeAt ctx.target r (n0.copyDataFrom data) a
              omega
termination_by sizeOf v

/-- The main copy theorem for a forest of sibling subtrees: with fresh
childless nodes waiting in the sibling slots and the whole block already
inside the allocator, a truncation-free `copyForest` adds exactly the
forest's descendant count, realizes the forest at its slots, and inspects
only sibling slots and freshly appended slots. -/
theorem copy_main_forest (env : TruncEnv) (vs : UctForest) (blockAlloc first i0 : Nat)
    (ctx : CopyCtx)
    (hslots : ∀ e, i0 ≤ e → e < i0 + vs.length →
      ∃ n0, ctx.target.get? (NodeRef.alloc blockAlloc (first + e)) = some n0 ∧
        n0.nuChildren = 0)
    (hblock : first + i0 + vs.length ≤ ctx.target.sizeAt blockAlloc)
    (hwarn : (copyForest env vs blockAlloc first i0 ctx).warn = true) :
    (copyForest env vs blockAlloc first i0 ctx).target.allocSizes
        = ctx.target.allocSizes + vs.descF ∧
    realizesForest (copyForest env vs blockAlloc first i0 ctx).target
        blockAlloc (first + i0) vs = true ∧
    ∀ p ∈ posOfForest (copyForest env vs blockAlloc first i0 ctx).target
        blockAlloc (first + i0) vs,
      (∃ e, i0 ≤ e ∧ e < i0 + vs.length ∧ p = NodeRef.alloc blockAlloc (first + e)) ∨
        ∃ a j, p = NodeRef.alloc a j ∧ ctx.target.sizeAt a ≤ j := by
  cases vs with
  | nil =>
    refine ⟨by simp [copyForest, UctForest.descF], rfl, ?_⟩
    intro p hp
    simp [posOfForest] at hp
  | cons v rest =>
    simp only [copyForest] at hwarn ⊢
    have hw1 : (copySubtree env v (NodeRef.alloc blockAlloc (first + i0)) { ctx with allocId := if ctx.target.NuAllocators ≤ ctx.allocId + 1 then 0 else ctx.allocId + 1 }).warn = true :=
      (copy_pres_forest env rest blockAlloc first (i0 + 1) (copySubtree env v (NodeRef.alloc blockAlloc (first + i0)) { ctx with allocId := if ctx.target.NuAllocators ≤ ctx.allocId + 1 then 0 else ctx.allocId + 1 })).2.2.1 hwarn
    obtain ⟨m0, hm0, hmz⟩ := hslots i0 le_rfl (by
      simp only [UctForest.length]
      omega)
    have hv := copy_main_view env v (NodeRef.alloc blockAlloc (first + i0)) { ctx with allocId := if ctx.target.NuAllocators ≤ ctx.allocId + 1 then 0 else ctx.allocId + 1 } m0 hm0 hmz hw1
    have hslots1 : ∀ e, i0 + 1 ≤ e → e < i0 + 1 + rest.length →
        ∃ n1, (copySubtree env v (NodeRef.alloc blockAlloc (first + i0)) { ctx with allocId := if ctx.target.NuAllocators ≤ ctx.allocId + 1 then 0 else ctx.allocId + 1 }).target.get? (NodeRef.alloc blockAlloc (first + e)) = some n1 ∧
          n1.nuChildren = 0 := by
      intro e he1 he2
      obtain ⟨n1, hn1, hz1⟩ := hslots e (by omega) (by
        simp only [UctForest.length]
        omega)
      refine ⟨n1, ?_, hz1⟩
      refine copy_frame_view env v (NodeRef.alloc blockAlloc (first + i0)) { ctx with allocId := if ctx.target.NuAllocators ≤ ctx.allocId + 1 then 0 else ctx.allocId + 1 } (NodeRef.alloc blockAlloc (first + e)) n1 hn1 ?_
      intro hc
      rw [NodeRef.alloc.injEq] at hc
      omega
    have hblock1 : first + (i0 + 1) + rest.length ≤ (copySubtree env v (NodeRef.alloc blockAlloc (first + i0)) { ctx with allocId := if ctx.target.NuAllocators ≤ ctx.allocId + 1 then 0 else ctx.allocId + 1 }).target.sizeAt blockAlloc := by
      have h1 := (copy_pres_view env v (NodeRef.alloc blockAlloc (first + i0)) { ctx with allocId := if ctx.target.NuAllocators ≤ ctx.allocId + 1 then 0 else ctx.allocId + 1 }).2.1 blockAlloc
      have h2 : ({ ctx with allocId := if ctx.target.NuAllocators ≤ ctx.allocId + 1 then 0 else ctx.allocId + 1 } : CopyCtx).target.sizeAt blockAlloc = ctx.target.sizeAt blockAlloc := rfl
      simp only [UctForest.length] at hblock
      omega
    have hrest := copy_main_forest env rest blockAlloc first (i0 + 1) (copySubtree env v (NodeRef.alloc blockAlloc (first + i0)) { ctx with allocId := if ctx.target.NuAllocators ≤ ctx.allocId + 1 then 0 else ctx.allocId + 1 }) hslots1
      hblock1 hwarn
    have hagree : ∀ p ∈ posOfView (copySubtree env v (NodeRef.alloc blockAlloc (first + i0)) { ctx with allocId := if ctx.target.NuAllocators ≤ ctx.allocId + 1 then 0 else ctx.allocId + 1 }).target (NodeRef.alloc blockAlloc (first + i0)) v,
        (copyForest env rest blockAlloc first (i0 + 1) (copySubtree env v (NodeRef.alloc blockAlloc (first + i0)) { ctx with allocId := if ctx.target.NuAllocators ≤ ctx.allocId + 1 then 0 else ctx.allocId + 1 })).target.get? p = (copySubtree env v (NodeRef.alloc blockAlloc (first + i0)) { ctx with allocId := if ctx.target.NuAllocators ≤ ctx.allocId + 1 then 0 else ctx.allocId + 1 }).target.get? p := by
      intro p hp
      obtain ⟨np, hnp⟩ := realize_valid_view (copySubtree env v (NodeRef.alloc blockAlloc (first + i0)) { ctx with allocId := if ctx.target.NuAllocators ≤ ctx.allocId + 1 then 0 else ctx.allocId + 1 }).target (NodeRef.alloc blockAlloc (first + i0)) v hv.2.1 p hp
      rw [hnp]
      refine copy_frame_forest env rest blockAlloc first (i0 + 1) (copySubtree env v (NodeRef.alloc blockAlloc (first + i0)) { ctx with allocId := if ctx.target.NuAllocators ≤ ctx.allocId + 1 then 0 else ctx.allocId + 1 }) p np hnp ?_
      intro e he1 he2 hc
      rcases hv.2.2 p hp with rfl | ⟨a, j, hpj, hsj⟩
      · rw [NodeRef.alloc.injEq] at hc
        omega
      · rw [hpj, NodeRef.alloc.injEq] at hc
        obtain ⟨ha, hj⟩ := hc
        rw [ha] at hsj
        have hsj2 : ctx.target.sizeAt blockAlloc ≤ j := hsj
        simp only [UctForest.length] at hblock
        omega
    have hmono := realizes_mono_view (copySubtree env v (NodeRef.alloc blockAlloc (first + i0)) { ctx with allocId := if ctx.target.NuAllocators ≤ ctx.allocId + 1 then 0 else ctx.allocId + 1 }).target (copyForest env rest blockAlloc first (i0 + 1) (copySubtree env v (NodeRef.alloc blockAlloc (first + i0)) { ctx with allocId := if ctx.target.NuAllocators ≤ ctx.allocId + 1 then 0 else ctx.allocId + 1 })).target (NodeRef.alloc blockAlloc (first + i0)) v hagree hv.2.1
    refine ⟨?_, ?_, ?_⟩
    · have h1 := hrest.1
      have h2 := hv.1
      have h3 : ({ ctx with allocId := if ctx.target.NuAllocators ≤ ctx.allocId + 1 then 0 else ctx.allocId + 1 } : CopyCtx).target.allocSizes = ctx.target.allocSizes := rfl
      simp only [UctForest.descF]
      omega
    · simp only [realizesForest, Bool.and_eq_true]
      exact ⟨hmono.1, hrest.2.1⟩
    · intro p hp
      simp only [posOfForest] at hp
      rcases List.mem_append.mp hp with hp1 | hp2
      · rw [hmono.2] at hp1
        rcases hv.2.2 p hp1 with rfl | ⟨a, j, hpj, hsj⟩
        · refine Or.inl ⟨i0, le_rfl, ?_, rfl⟩
          simp only [UctForest.length]
          omega
        · right
          refine ⟨a, j, hpj, ?_⟩
          exact hsj
      · rcases hrest.2.2 p hp2 with ⟨e, he1, he2, hpe⟩ | ⟨a, j, hpj, hsj⟩
        · left
          refine ⟨e, by omega, ?_, hpe⟩
          simp only [UctForest.length]
          omega
        · right
          refine ⟨a, j, hpj, ?_⟩
          have h1 := (copy_pres_view env v (NodeRef.alloc blockAlloc (first + i0)) { ctx with allocId := if ctx.target.NuAllocators ≤ ctx.allocId + 1 then 0 else ctx.allocId + 1 }).2.1 a
          have h2 : ({ ctx with allocId := if ctx.target.NuAllocators ≤ ctx.allocId + 1 then 0 else ctx.allocId + 1 } : CopyCtx).target.sizeAt a = ctx.target.sizeAt a := rfl
          omega
termination_by sizeOf vs

end

/-- Clearing empties every allocator. -/
theorem map_clear_sizes (l : List SgUctAllocator) :
    ((l.map SgUctAllocator.Clear).map SgUctAllocator.NuNodes).sum = 0 := by
  induction l with
  | nil => rfl
  | cons a rest ih =>
    simp only [List.map_cons, List.sum_cons, ih]
    rfl

/-- A cleared tree holds no allocator nodes. -/
theorem Clear_allocSizes (t : SgUctTree) : t.Clear.allocSizes = 0 := by
  simp only [SgUctTree.Clear, SgUctTree.allocSizes]
  exact map_clear_sizes t.allocators

/-- A cleared tree satisfies the structural invariant. -/
theorem wf_Clear (t : SgUctTree) : t.Clear.WF := by
  intro p n hp
  cases p with
  | root =>
    have h2 : some (freshNode SG_NULLMOVE) = some n := hp
    cases h2
    intro hk
    simp [freshNode] at hk
  | alloc i j =>
    simp only [SgUctTree.get?] at hp
    rcases ha : t.Clear.allocators[i]? with _ | a
    · rw [ha] at hp
      cases hp
    · rw [ha] at hp
      have hp2 : a.nodes[j]? = some n := hp
      have hmem : a ∈ t.allocators.map SgUctAllocator.Clear := mem_of_getElem? _ i a ha
      obtain ⟨b, hb, hba⟩ := List.mem_map.mp hmem
      have hnodes : a.nodes = [] := by
        rw [← hba]
        rfl
      rw [hnodes] at hp2
      cases hp2

/-- C3 counterexample: with both the timer and the abort flag firing at the
first poll, one `ExtractSubtree` call emits two warning messages — one per
truncation reason at the truncating node — not a single one; the truncated
destination node does have its position count zeroed as claimed. -/
theorem C3_counterexample :
    (treeW.ExtractSubtree viewTwo true envBoth).msgs = [timeMsg, abortMsg] ∧
    (treeW.ExtractSubtree viewTwo true envBoth).msgs.length = 2 ∧
    ((treeW.ExtractSubtree viewTwo true envBoth).target.get? NodeRef.root).map
        SgUctNode.posCount = some 0 :=
  ⟨rfl, rfl, rfl⟩

/-- C3 (amended): whenever at some node the destination allocator lacks
capacity for the child block, or the timer has expired, or the abort flag is
raised, the copy truncates at that node — the destination node keeps the
copied data but its position count is set to zero, no child is copied (no
node is appended), and the warn flag is lowered so later truncations stay
silent; when the warn flag was still raised, the messages printed at this
node are one line per truncation reason that holds (at least one, at most
the three known lines, in program order).  Per `ExtractSubtree` call with
`warnTruncate` set, either no truncation happened and no message was
printed, or the messages are exactly the first truncating node's lines;
with `warnTruncate` unset nothing is printed.  The extracted tree always
satisfies the structural invariant (every child link of every node stays
inside an existing allocator), so it is valid and usable. -/
theorem C3_truncation :
    (∀ (env : TruncEnv) (data : UctData) (c : UctView) (cs : UctForest) (r : NodeRef)
        (ctx : CopyCtx),
      (!copyCapacity (ctx.target.setNode r
            (((ctx.target.get? r).getD (freshNode SG_NULLMOVE)).copyDataFrom data))
          ctx.allocId (UctForest.cons c cs).length
        || env.timeOutAt ctx.step || env.abortAt ctx.step) = true →
      (copySubtree env (UctView.mk data (UctForest.cons c cs)) r ctx).target
          = (ctx.target.setNode r
              (((ctx.target.get? r).getD (freshNode SG_NULLMOVE)).copyDataFrom data)).setNode
            r { ((ctx.target.get? r).getD (freshNode SG_NULLMOVE)).copyDataFrom data with
                posCount := 0 } ∧
      (copySubtree env (UctView.mk data (UctForest.cons c cs)) r ctx).target.allocSizes
          = ctx.target.allocSizes ∧
      (copySubtree env (UctView.mk data (UctForest.cons c cs)) r ctx).warn = false ∧
      (ctx.warn = true →
        ∃ L, (copySubtree env (UctView.mk data (UctForest.cons c cs)) r ctx).msgs
            = ctx.msgs ++ L ∧ L ≠ [] ∧
          List.Sublist L [capacityMsg, timeMsg, abortMsg])) ∧
    (∀ (t : SgUctTree) (v : UctView) (env : TruncEnv),
      ((t.ExtractSubtree v true env).warn = true ∧
        (t.ExtractSubtree v true env).msgs = []) ∨
      ((t.ExtractSubtree v true env).warn = false ∧
        (t.ExtractSubtree v true env).msgs ≠ [] ∧
        List.Sublist (t.ExtractSubtree v true env).msgs
          [capacityMsg, timeMsg, abortMsg])) ∧
    (∀ (t : SgUctTree) (v : UctView) (env : TruncEnv),
      (t.ExtractSubtree v false env).msgs = []) ∧
    (∀ (t : SgUctTree) (v : UctView) (w : Bool) (env : TruncEnv),
      (t.ExtractSubtree v w env).target.WF) := by
  refine ⟨?_, ?_, ?_, ?_⟩
  · intro env data c cs r ctx htr
    simp only [copySubtree]
    split
    · rename_i h2
      refine ⟨rfl, ?_, rfl, ?_⟩
      · show ((ctx.target.setNode r _).setNode r _).allocSizes = ctx.target.allocSizes
        rw [setNode_allocSizes, setNode_allocSizes]
      · intro hw
        refine ⟨truncMsgs (copyCapacity (ctx.target.setNode r
            (((ctx.target.get? r).getD (freshNode SG_NULLMOVE)).copyDataFrom data))
            ctx.allocId (UctForest.cons c cs).length)
            (env.timeOutAt ctx.step) (env.abortAt ctx.step) true, ?_,
          (truncMsgs_spec _ _ _ h2).1, (truncMsgs_spec _ _ _ h2).2⟩
        show ctx.msgs ++ truncMsgs _ _ _ ctx.warn = _
        rw [hw]
    · rename_i h2
      exact absurd htr h2
  · intro t v env
    have h := copy_msgs_view env v NodeRef.root
      { target := t.Clear, allocId := 0, warn := true, msgs := [], step := 0 } rfl
    rcases h with ⟨h1, h2⟩ | ⟨h1, L, h2, h3, h4⟩
    · exact Or.inl ⟨h1, h2⟩
    · rw [List.nil_append] at h2
      have h5 : (t.ExtractSubtree v true env).msgs = L := h2
      refine Or.inr ⟨h1, ?_, ?_⟩
      · rw [h5]
        exact h3
      · rw [h5]
        exact h4
  · intro t v env
    exact (copy_pres_view env v NodeRef.root
      { target := t.Clear, allocId := 0, warn := false, msgs := [], step := 0 }).2.2.2 rfl
  · intro t v w env
    exact copy_wf_view env v NodeRef.root
      { target := t.Clear, allocId := 0, warn := w, msgs := [], step := 0 } (wf_Clear t)

/-- Witness for the amended C3 at concrete inputs: a truncating copy (both
timer and abort firing) lowers the warn flag and appends no node, an
untruncated warn-off extraction stays silent, and an extraction result
satisfies the structural invariant. -/
theorem C3_truncation_witness :
    (copySubtree envBoth (UctView.mk dA (UctForest.cons (UctView.mk dB UctForest.nil)
        UctForest.nil)) NodeRef.root
      { target := treeW, allocId := 0, warn := true, msgs := [], step := 0 }).warn = false ∧
    (copySubtree envBoth (UctView.mk dA (UctForest.cons (UctView.mk dB UctForest.nil)
        UctForest.nil)) NodeRef.root
      { target := treeW, allocId := 0, warn := true, msgs := [], step := 0 }).target.allocSizes
      = treeW.allocSizes ∧
    (treeW.ExtractSubtree viewTwo false envNone).msgs = [] ∧
    (treeW.ExtractSubtree viewTwo true envNone).target.WF := by
  have h := C3_truncation.1 envBoth dA (UctView.mk dB UctForest.nil) UctForest.nil
    NodeRef.root { target := treeW, allocId := 0, warn := true, msgs := [], step := 0 }
    (by decide)
  exact ⟨h.2.2.1, h.2.1, C3_truncation.2.2.1 treeW viewTwo envNone,
    C3_truncation.2.2.2 treeW viewTwo true envNone⟩

/-- C4: when the reachable subtree of a source node (its view, as read by
`viewAt`) is extracted into a target and the copy completes with no
truncation (the warn flag survives), the target's node count equals the
number of nodes reachable from that node in the source, and every reachable
node's data and child structure are reproduced in the target from its
root. -/
theorem C4_extract_subtree (src target : SgUctTree) (fuel : Nat) (r : NodeRef)
    (v : UctView) (env : TruncEnv) (hv : src.viewAt fuel r = some v)
    (hwarn : (target.ExtractSubtree v true env).warn = true) :
    (target.ExtractSubtree v true env).target.NuNodes = v.size ∧
    realizesView (target.ExtractSubtree v true env).target NodeRef.root v = true := by
  have hmain := copy_main_view env v NodeRef.root
    { target := target.Clear, allocId := 0, warn := true, msgs := [], step := 0 }
    (freshNode SG_NULLMOVE) rfl rfl hwarn
  constructor
  · show 1 + (target.ExtractSubtree v true env).target.allocSizes = v.size
    have h0 : (target.ExtractSubtree v true env).target.allocSizes
        = (copySubtree env v NodeRef.root
            { target := target.Clear, allocId := 0, warn := true, msgs := [], step := 0 }).target.allocSizes := rfl
    have h1 := hmain.1
    have h2 : ({ target := target.Clear, allocId := 0, warn := true, msgs := [], step := 0 } : CopyCtx).target.allocSizes = 0 :=
      Clear_allocSizes target
    have h4 := UctView.size_eq v
    omega
  · exact hmain.2.1

/-- Witness for C4: extracting the two-node reachable subtree of `srcTwo`
into `treeW` reproduces it exactly, with node count 2. -/
theorem C4_extract_subtree_witness :
    srcTwo.viewAt 2 NodeRef.root = some viewTwo ∧
    (treeW.ExtractSubtree viewTwo true envNone).warn = true ∧
    (treeW.ExtractSubtree viewTwo true envNone).target.NuNodes = viewTwo.size ∧
    realizesView (treeW.ExtractSubtree viewTwo true envNone).target NodeRef.root
      viewTwo = true := by
  have hv : srcTwo.viewAt 2 NodeRef.root = some viewTwo := by
    simp [SgUctTree.viewAt, SgUctTree.viewsFrom, srcTwo, viewTwo, SgUctTree.get?,
      SgUctNode.HasChildren, SgUctNode.dataOf, dA, dB]
  have h := C4_extract_subtree srcTwo treeW 2 NodeRef.root viewTwo envNone hv rfl
  exact ⟨hv, rfl, h.1, h.2⟩

end Fuego
